import Mathlib

/-!
# GlitchChess — verification of the augmented-chess rule engine

Shallow embedding of the GlitchChess engine: the upgrade spawner
(`gameLogic`: `calculateMaterialScore`, `moveUpgradeCowardly`,
`spawnUpgrade`, `processEndTurnSpawnsAndMoves`) and the committed-state
transition of the `ChessGame` click handler (`handleSquareClick`),
together with spec-side characterizations of the relocation pass.

Board geometry follows the source: a position is indexed by board-array
coordinates `board[r][c]` with row `r = 0` being rank 8; an algebraic
square is a pair `(fileIndex, rankIndex)` with `rankIndex = rank - 1`,
so the board cell of a square is `(7 - rankIndex, fileIndex)`.
Upgrade entities carry `(x, y)` board-array coordinates (`x = c`,
`y = r`).  Standard chess move legality is delegated to the external
chess library; its output for the one move under consideration enters
the model as an explicit argument (`ExtMove`), and the randomness used
by the spawner enters as an explicit stream of choices (`Rng`).
-/

namespace GlitchChess

/-- Side to move / piece colour, `'w' | 'b'` in the source. -/
inductive Color where
  | w : Color
  | b : Color
deriving DecidableEq, Repr

/-- The other side, `c === 'w' ? 'b' : 'w'`. -/
def Color.other : Color → Color
  | Color.w => Color.b
  | Color.b => Color.w

/-- Chess piece kinds as used by the piece-value table. -/
inductive Ptype where
  | p : Ptype
  | n : Ptype
  | b : Ptype
  | r : Ptype
  | q : Ptype
  | k : Ptype
deriving DecidableEq, Repr

/-- A piece as delivered by `chess.board()`: colour and type. -/
structure Piece where
  color : Color
  ptype : Ptype
deriving DecidableEq, Repr

/-- `PIECE_VALUES = { q: 9, r: 5, b: 3, n: 3, p: 1, k: 0 }`. -/
def pieceValue : Ptype → Int
  | Ptype.q => 9
  | Ptype.r => 5
  | Ptype.b => 3
  | Ptype.n => 3
  | Ptype.p => 1
  | Ptype.k => 0

/-- The board as a cell map `board[r][c]`; row 0 is rank 8. -/
abbrev Board := Nat → Nat → Option Piece

/-- Update one board cell. -/
def bset (brd : Board) (r c : Nat) (v : Option Piece) : Board :=
  fun r' c' => if r' = r ∧ c' = c then v else brd r' c'

/-- The empty position. -/
def emptyBoard : Board := fun _ _ => none

/-- An algebraic square encoded as `(fileIndex, rankIndex)`,
`fileIndex = 'a'..'h' → 0..7`, `rankIndex = rank - 1`. -/
abbrev Square := Nat × Nat

/-- Board row of a square (`r = 8 - rank = 7 - rankIndex`). -/
def sqRow (sq : Square) : Nat := 7 - sq.2

/-- Board column of a square (the file index). -/
def sqCol (sq : Square) : Nat := sq.1

/-- `chess.get(square)`. -/
def getSq (brd : Board) (sq : Square) : Option Piece := brd (sqRow sq) (sqCol sq)

/-- `chess.put(piece, square)` (replaces any occupant). -/
def putSq (brd : Board) (p : Piece) (sq : Square) : Board :=
  bset brd (sqRow sq) (sqCol sq) (some p)

/-- `chess.remove(square)`. -/
def removeSq (brd : Board) (sq : Square) : Board :=
  bset brd (sqRow sq) (sqCol sq) none

/-- The ability types of the game. -/
inductive UpgradeKind where
  | double_move : UpgradeKind
  | martyrdom : UpgradeKind
  | hidden_move : UpgradeKind
  | swap : UpgradeKind
  | ghost : UpgradeKind
  | necromancer : UpgradeKind
  | sniper : UpgradeKind
  | builder : UpgradeKind
  | time_add : UpgradeKind
  | time_sub : UpgradeKind
deriving DecidableEq, Repr

/-- `UpgradeEntity = { id, x, y, type }`, `(x, y)` board-array coordinates. -/
structure UpgradeEntity where
  id : String
  x : Int
  y : Int
  type : UpgradeKind
deriving DecidableEq, Repr

/-- A modifier value `{ type, activeTurn }` stored in the square-keyed map. -/
structure Modifier where
  type : UpgradeKind
  activeTurn : Color
deriving DecidableEq, Repr

/-- `modifiers`: a square-keyed record of at most one modifier per square. -/
abbrev ModMap := Square → Option Modifier

/-- Point update / delete of the modifier record. -/
def mset (m : ModMap) (sq : Square) (v : Option Modifier) : ModMap :=
  fun sq' => if sq' = sq then v else m sq'

/-- `walls`: square → remaining half-move lifetime. -/
abbrev WallMap := Square → Option Nat

/-- Point update / delete of the wall record. -/
def wset (w : WallMap) (sq : Square) (v : Option Nat) : WallMap :=
  fun sq' => if sq' = sq then v else w sq'

/-- The all-cells traversal order of the source loops:
`for r in 0..7, for c in 0..7` producing `(r, c)`. -/
def allCells : List (Nat × Nat) :=
  (List.range 8).flatMap (fun r => (List.range 8).map (fun c => (r, c)))

/-- `calculateMaterialScore`: summed piece values `(white, black)`. -/
def calculateMaterialScore (board : Board) : Int × Int :=
  allCells.foldl
    (fun score rc =>
      match board rc.1 rc.2 with
      | none => score
      | some pc =>
        match pc.color with
        | Color.w => (score.1 + pieceValue pc.ptype, score.2)
        | Color.b => (score.1, score.2 + pieceValue pc.ptype))
    (0, 0)

/-- One cell of the highest-value-piece scan of `moveUpgradeCowardly`:
accumulator `(maxVal, targets)`, targets stored as `(c, r)` pairs. -/
def collectStep (board : Board) (acc : Int × List (Nat × Nat)) (rc : Nat × Nat) :
    Int × List (Nat × Nat) :=
  match board rc.1 rc.2 with
  | none => acc
  | some pc =>
    let val : Int := pieceValue pc.ptype
    if val > acc.1 then (val, [(rc.2, rc.1)])
    else if val = acc.1 then (acc.1, acc.2 ++ [(rc.2, rc.1)])
    else acc

/-- The `maxVal`/`targets` scan of `moveUpgradeCowardly` (init `maxVal = -1`). -/
def collectTargets (board : Board) : Int × List (Nat × Nat) :=
  allCells.foldl (collectStep board) (-1, [])

/-- `getDist`: Manhattan distance between two integer points. -/
def manhattan (a b : Int × Int) : Int :=
  ((a.1 - b.1).natAbs : Int) + ((a.2 - b.2).natAbs : Int)

/-- `sumDist`: sum of Manhattan distances from `pos` to every target `(c, r)`. -/
def distSum (targets : List (Nat × Nat)) (pos : Int × Int) : Int :=
  targets.foldl (fun s t => s + manhattan pos ((t.1 : Int), (t.2 : Int))) 0

/-- The candidate displacement list of `moveUpgradeCowardly`, in source order:
stay, +x, -x, +y, -y. -/
def cowCandidates : List (Int × Int) :=
  [(0, 0), (1, 0), (-1, 0), (0, 1), (0, -1)]

/-- One candidate step of `moveUpgradeCowardly`'s best-escape loop:
accumulator `(bestPos, maxDistScore)`; skips out-of-bounds, occupied,
or otherwise-upgraded squares, else keeps a strict improvement. -/
def cowStep (board : Board) (u : UpgradeEntity) (all : List UpgradeEntity)
    (targets : List (Nat × Nat)) (acc : (Int × Int) × Int) (mv : Int × Int) :
    (Int × Int) × Int :=
  let nx := u.x + mv.1
  let ny := u.y + mv.2
  if nx < 0 ∨ 7 < nx ∨ ny < 0 ∨ 7 < ny then acc
  else if (board ny.toNat nx.toNat).isSome then acc
  else if all.any (fun u2 => u2.id != u.id && u2.x == nx && u2.y == ny) then acc
  else if distSum targets (nx, ny) > acc.2 then ((nx, ny), distSum targets (nx, ny))
  else acc

/-- `moveUpgradeCowardly`: move an upgrade to the reachable free square
maximizing summed distance to all maximum-value pieces. -/
def moveUpgradeCowardly (u : UpgradeEntity) (board : Board)
    (all : List UpgradeEntity) : UpgradeEntity :=
  let targets := (collectTargets board).2
  if targets.isEmpty then u
  else
    let best := cowCandidates.foldl (cowStep board u all targets) ((u.x, u.y), -1)
    { u with x := best.1.1, y := best.1.2 }

/-- The relocation ("cowardly") pass: `nextUpgrades.map(u => moveUpgradeCowardly
(u, board, nextUpgrades))` — note every element is checked against the
pre-pass list, exactly as the closure in the source captures it. -/
def relocationPass (board : Board) (ups : List UpgradeEntity) : List UpgradeEntity :=
  ups.map (fun u => moveUpgradeCowardly u board ups)

/-- The `upgradeTypes` pool of `spawnUpgrade`, in source order. -/
def upgradeTypes : List UpgradeKind :=
  [UpgradeKind.double_move, UpgradeKind.martyrdom, UpgradeKind.hidden_move,
   UpgradeKind.swap, UpgradeKind.ghost, UpgradeKind.necromancer,
   UpgradeKind.sniper, UpgradeKind.builder]

/-- One random draw: an index source for the square, an index source for the
type, and the fresh id string (`Math.random().toString(36).substr(2, 9)`). -/
abbrev RandChoice := Nat × Nat × String

/-- `spawnUpgrade`: pick an empty upgrade-free square (weighted 10× toward the
badly-losing side's half when `|materialDiff| ≥ 3`), a random type from
`upgradeTypes`, and a fresh id.  `Math.floor(Math.random() * len)` is
modelled as `choice % len`. -/
def spawnUpgrade (board : Board) (currentUpgrades : List UpgradeEntity)
    (materialDiff : Int) (r : RandChoice) : Option UpgradeEntity :=
  let possibleSquares : List (Nat × Nat) :=
    allCells.foldl
      (fun acc rc =>
        if (board rc.1 rc.2).isNone
            && !(currentUpgrades.any (fun u => u.x == (rc.2 : Int) && u.y == (rc.1 : Int))) then
          acc ++ [(rc.2, rc.1)]
        else acc)
      []
  if possibleSquares.isEmpty then none
  else
    let isWhiteLosingBadly := materialDiff ≤ -3
    let isBlackLosingBadly := materialDiff ≥ 3
    let pool :=
      if isWhiteLosingBadly ∨ isBlackLosingBadly then
        possibleSquares.flatMap (fun sq =>
          let w1 : Nat := if isWhiteLosingBadly ∧ 4 ≤ sq.2 then 10 else 1
          let w2 : Nat := if isBlackLosingBadly ∧ sq.2 ≤ 3 then 10 else w1
          List.replicate w2 sq)
      else possibleSquares
    let chosen := pool.getD (r.1 % pool.length) (0, 0)
    some { id := r.2.2, x := (chosen.1 : Int), y := (chosen.2 : Int),
           type := upgradeTypes.getD (r.2.1 % upgradeTypes.length) UpgradeKind.double_move }

/-- The randomness consumed by one end-of-turn pass: the `k`-th spawn call
uses `rng k`. -/
abbrev Rng := Nat → RandChoice

/-- The `while (nextUpgrades.length < 2)` spawn loop (fuel-bounded; two
iterations always suffice to reach length 2). -/
def spawnLoop (board : Board) (diff : Int) (rng : Rng) :
    Nat → Nat → List UpgradeEntity → List UpgradeEntity
  | 0, _, ups => ups
  | fuel + 1, k, ups =>
    if ups.length < 2 then
      match spawnUpgrade board ups diff (rng k) with
      | some u => spawnLoop board diff rng fuel (k + 1) (ups ++ [u])
      | none => ups
    else ups

/-- `processEndTurnSpawnsAndMoves`: relocation pass, then top up to two
upgrades using the material-difference-weighted spawner. -/
def processEndTurnSpawnsAndMoves (rng : Rng) (board : Board)
    (ups : List UpgradeEntity) : List UpgradeEntity :=
  let next := relocationPass board ups
  let scores := calculateMaterialScore board
  let diff := scores.1 - scores.2
  spawnLoop board diff rng 2 0 next

/-! ## The `ChessGame` click handler (committed state transition) -/

/-- `timeConfig = { base, increment }` in seconds. -/
structure TimeConfig where
  base : Nat
  increment : Nat
deriving DecidableEq, Repr

/-- One history entry `{ fen, upgrades, modifiers, walls, text }`
(the position part of the fen is kept as a board). -/
structure HistoryEntry where
  board : Board
  upgrades : List UpgradeEntity
  modifiers : ModMap
  walls : WallMap
  text : String

/-- The committed game state: position (with the turn token kept in sync
with the position's side to move), upgrades, modifiers, walls, clocks,
history and winner. -/
structure GameState where
  board : Board
  turn : Color
  upgrades : List UpgradeEntity
  modifiers : ModMap
  walls : WallMap
  winner : Option Color
  timeConfig : TimeConfig
  timeLeft : Color → Nat
  lastMoveTime : Option Nat
  history : List HistoryEntry

/-- The local interaction state: current selection and the pending
ability modes (`awaitingSwapSource`, `sniperAttacker`, `builderActive`). -/
structure UiState where
  selectedSquare : Option Square
  awaitingSwapSource : Option Square
  sniperAttacker : Option Square
  builderActive : Option (Square × List Square)

/-- The outcome of the external `chess.move({from, to, promotion: 'q'})`
call for the clicked move: the resulting position, the capture flag
(`flags` contains `c` or `e`) and the SAN string. -/
structure ExtMove where
  newBoard : Board
  isCapture : Bool
  san : String

/-- `currentElapsedSeconds`: whole seconds since the last committed
action (`Math.floor((now - lastMoveTime) / 1000)`), 0 when no action has
been committed yet. -/
def elapsedOf (lmt : Option Nat) (now : Nat) : Nat :=
  match lmt with
  | some t => (now - t) / 1000
  | none => 0

/-- `decayWalls`: decrement every wall lifetime, deleting the expired. -/
def decayWalls (w : WallMap) : WallMap :=
  fun sq =>
    match w sq with
    | none => none
    | some n => if n ≤ 1 then none else some (n - 1)

/-- Point update of the per-colour clock record. -/
def updTL (tl : Color → Nat) (c : Color) (v : Nat) : Color → Nat :=
  fun c' => if c' = c then v else tl c'

/-- Sniper range: Chebyshev distance `max(|dx|, |dy|)` between squares. -/
def cheb (a b : Square) : Nat :=
  max ((a.1 : Int) - (b.1 : Int)).natAbs ((a.2 : Int) - (b.2 : Int)).natAbs

/-- The landed-on-upgrade test `u.x === fileIndex && u.y === 7 - rankIndex`. -/
def upgradeClickHit (sq : Square) (u : UpgradeEntity) : Bool :=
  u.x == (sq.1 : Int) && u.y == (7 : Int) - (sq.2 : Int)

/-- The `catch` branch of the click handler: the committed state is left
unchanged; the selection moves to the clicked square if it holds a
friendly piece and clears otherwise; every pending mode is cleared. -/
def catchPath (gs : GameState) (pc : Color) (square : Square) :
    GameState × UiState :=
  match getSq gs.board square with
  | some p =>
    if p.color = pc then (gs, ⟨some square, none, none, none⟩)
    else (gs, ⟨none, none, none, none⟩)
  | none => (gs, ⟨none, none, none, none⟩)

/-- Log text prefixed with the mover's colour. -/
def moveTextFor (pc : Color) (alg : String) : String :=
  (match pc with | Color.w => "W: " | Color.b => "B: ") ++ alg

/-- The builder-mode branch: accumulate wall placements; on the third,
decay old walls, place the three new ones at lifetime 2, consume the
builder modifier, flip the turn and run end-of-turn processing.  The
clocks are not touched. -/
def builderStep (gs : GameState) (ui : UiState) (pc : Color) (square : Square)
    (now : Nat) (rng : Rng) (sp : Square × List Square) : GameState × UiState :=
  if (getSq gs.board square).isSome ∨ (gs.walls square).isSome then (gs, ui)
  else
    let newPlaced := sp.2 ++ [square]
    if newPlaced.length < 3 then
      (gs, { ui with builderActive := some (sp.1, newPlaced) })
    else
      let nextWalls := newPlaced.foldl (fun w s => wset w s (some 2)) (decayWalls gs.walls)
      let nextModifiers := mset gs.modifiers sp.1 none
      let currentTurn := Color.other gs.turn
      let nextUpgrades := processEndTurnSpawnsAndMoves rng gs.board gs.upgrades
      let entry : HistoryEntry :=
        ⟨gs.board, nextUpgrades, nextModifiers, nextWalls, moveTextFor pc "[BUILDER]"⟩
      ({ gs with
          turn := currentTurn
          upgrades := nextUpgrades
          modifiers := nextModifiers
          walls := nextWalls
          history := gs.history ++ [entry]
          lastMoveTime := some now },
       { ui with selectedSquare := none, builderActive := none })

/-- The swap-mode branch: a click on a different friendly-occupied square
exchanges the two pieces and their modifier entries, flips the turn and
runs end-of-turn processing; any other click is rejected without any
state change.  The clocks are not touched. -/
def swapStep (gs : GameState) (ui : UiState) (pc : Color) (square : Square)
    (now : Nat) (rng : Rng) (src : Square) : GameState × UiState :=
  match getSq gs.board square with
  | some tp =>
    if tp.color = pc ∧ square ≠ src then
      let nextWalls := decayWalls gs.walls
      let p1 := getSq gs.board src
      let b1 := removeSq gs.board src
      let b2 := removeSq b1 square
      let b3 := match p1 with | some pp => putSq b2 pp square | none => b2
      let b4 := putSq b3 tp src
      let currentTurn := Color.other gs.turn
      let mA := mset gs.modifiers square (gs.modifiers src)
      let mB := mset mA src (gs.modifiers square)
      let nextUpgrades := processEndTurnSpawnsAndMoves rng b4 gs.upgrades
      let entry : HistoryEntry :=
        ⟨b4, nextUpgrades, mB, nextWalls, moveTextFor pc "[SWAP]"⟩
      ({ gs with
          board := b4
          turn := currentTurn
          upgrades := nextUpgrades
          modifiers := mB
          walls := nextWalls
          history := gs.history ++ [entry]
          lastMoveTime := some now },
       { ui with selectedSquare := none, awaitingSwapSource := none })
    else (gs, ui)
  | none => (gs, ui)

/-- The sniper-mode branch: a click on an enemy piece within Chebyshev
distance 3 resolves — a non-king target is removed from the position, a
king target instead sets the actor as winner (the king is not removed);
the sniper modifier is deleted from the attacker's square and the turn
flips.  Any other click is rejected without any state change.  The
clocks are not touched. -/
def sniperStep (gs : GameState) (ui : UiState) (pc : Color) (square : Square)
    (now : Nat) (rng : Rng) (satk : Square) : GameState × UiState :=
  match getSq gs.board square with
  | some tp =>
    if tp.color ≠ pc then
      if cheb satk square ≤ 3 then
        let nextWalls := decayWalls gs.walls
        let bw : Board × Option Color :=
          if tp.ptype = Ptype.k then (gs.board, some pc)
          else (removeSq gs.board square, gs.winner)
        let nextModifiers := mset gs.modifiers satk none
        let currentTurn := Color.other gs.turn
        let nextUpgrades := processEndTurnSpawnsAndMoves rng bw.1 gs.upgrades
        let entry : HistoryEntry :=
          ⟨bw.1, nextUpgrades, nextModifiers, nextWalls, moveTextFor pc "[SNIPER]"⟩
        ({ gs with
            board := bw.1
            turn := currentTurn
            upgrades := nextUpgrades
            modifiers := nextModifiers
            walls := nextWalls
            winner := bw.2
            history := gs.history ++ [entry]
            lastMoveTime := some now },
         { ui with selectedSquare := none, sniperAttacker := none })
      else (gs, ui)
    else (gs, ui)
  | none => (gs, ui)

/-- The manual execution of a validated ghost move: remove the mover from
the source; a king on the destination makes the actor the winner (the
occupant is then overwritten by the `put`), otherwise any occupant is
captured; then the mover is put on the destination. -/
def ghostExec (gs : GameState) (pc : Color) (sel square : Square) :
    Board × Option Color :=
  let isTargetKing : Bool :=
    match getSq gs.board square with
    | some p => p.ptype == Ptype.k
    | none => false
  let piece := getSq gs.board sel
  let bA := removeSq gs.board sel
  let bw : Board × Option Color :=
    if isTargetKing then (bA, some pc)
    else
      match getSq bA square with
      | some _ => (removeSq bA square, gs.winner)
      | none => (bA, gs.winner)
  let bC := match piece with | some pp => putSq bw.1 pp square | none => bw.1
  (bC, bw.2)

/-- Tail of the post-move bookkeeping, after upgrade consumption:
fire a `time_add`/`time_sub` modifier sitting on the destination, add the
increment when the turn token actually flipped, run end-of-turn
processing, append history, commit. -/
def moveFinish (gs : GameState) (ui : UiState) (pc : Color) (square : Square)
    (now : Nat) (rng : Rng) (bMoved : Board) (nextWinner : Option Color)
    (currentTurn1 : Color) (nextWalls : WallMap) (algMove : String)
    (tl1 : Color → Nat) (m2 : ModMap) (ups2 : List UpgradeEntity) :
    GameState × UiState :=
  let tmt : ModMap × (Color → Nat) :=
    match m2 square with
    | some md =>
      if md.type = UpgradeKind.time_add then
        (mset m2 square none, updTL tl1 pc (tl1 pc + 30))
      else if md.type = UpgradeKind.time_sub then
        (mset m2 square none,
         updTL tl1 (Color.other pc) (tl1 (Color.other pc) - 15))
      else (m2, tl1)
    | none => (m2, tl1)
  let tl3 :=
    if currentTurn1 ≠ gs.turn then
      updTL tmt.2 pc (tmt.2 pc + gs.timeConfig.increment)
    else tmt.2
  let finalUps := processEndTurnSpawnsAndMoves rng bMoved ups2
  let entry : HistoryEntry :=
    ⟨bMoved, finalUps, tmt.1, gs.walls, moveTextFor pc algMove⟩
  ({ gs with
      board := bMoved
      turn := currentTurn1
      upgrades := finalUps
      modifiers := tmt.1
      walls := nextWalls
      timeLeft := tl3
      lastMoveTime := some now
      winner := nextWinner
      history := gs.history ++ [entry] },
   { ui with selectedSquare := none })

/-- Post-move bookkeeping shared by the ghost and the standard move path:
checkmate detection, source-modifier transfer (double-move reverts the
turn and is consumed, ghost is consumed, the commented-out necromancer
branch keeps the modifier, everything else is carried to the destination),
elapsed-time charge, upgrade consumption (a picked-up `swap` immediately
enters swap mode and commits early without clocks/history), then
`moveFinish`. -/
def movePost (gs : GameState) (ui : UiState) (pc : Color) (sel square : Square)
    (now : Nat) (elapsed : Nat) (rng : Rng) (bMoved : Board)
    (winner0 : Option Color) (sourceMod : Option Modifier) (checkmate : Bool)
    (algMove : String) : GameState × UiState :=
  let currentTurn0 := Color.other gs.turn
  let nextWalls := decayWalls gs.walls
  let nextWinner := if checkmate then some pc else winner0
  let tm : ModMap × Color :=
    match sourceMod with
    | none => (gs.modifiers, currentTurn0)
    | some m =>
      let md := mset gs.modifiers sel none
      if m.type = UpgradeKind.double_move then (md, Color.other currentTurn0)
      else if m.type = UpgradeKind.ghost then (md, currentTurn0)
      else (mset md square (some m), currentTurn0)
  let tl1 : Color → Nat :=
    match gs.lastMoveTime with
    | some _ => updTL gs.timeLeft pc (gs.timeLeft pc - elapsed)
    | none => gs.timeLeft
  match gs.upgrades.findIdx? (upgradeClickHit square) with
  | some i =>
    match gs.upgrades.get? i with
    | some up =>
      if up.type = UpgradeKind.swap then
        ({ gs with
            board := bMoved
            turn := Color.other tm.2
            upgrades := gs.upgrades.eraseIdx i
            modifiers := tm.1 },
         { ui with selectedSquare := none, awaitingSwapSource := some square })
      else
        moveFinish gs ui pc square now rng bMoved nextWinner tm.2 nextWalls
          algMove tl1 (mset tm.1 square (some ⟨up.type, tm.2⟩))
          (gs.upgrades.eraseIdx i)
    | none =>
      moveFinish gs ui pc square now rng bMoved nextWinner tm.2 nextWalls
        algMove tl1 tm.1 gs.upgrades
  | none =>
    moveFinish gs ui pc square now rng bMoved nextWinner tm.2 nextWalls
      algMove tl1 tm.1 gs.upgrades

/-- The committed-state transition of `handleSquareClick`; `ext` is the
external chess library's answer for the clicked standard move,
`ghostValid` the outcome of the stripped-board ghost legality probe and
`checkmate` the post-move `chess.isCheckmate()` answer. -/
def handleClick (gs : GameState) (ui : UiState) (pc : Color) (square : Square)
    (now : Nat) (rng : Rng) (ext : Option ExtMove) (ghostValid : Bool)
    (checkmate : Bool) : GameState × UiState :=
  if gs.winner.isSome then (gs, ui)
  else if gs.turn ≠ pc then (gs, ui)
  else if gs.timeLeft pc = 0 then (gs, ui)
  else
    let elapsed : Nat := elapsedOf gs.lastMoveTime now
    match ui.selectedSquare with
    | none =>
      match getSq gs.board square with
      | some p =>
        if p.color = pc then (gs, ⟨some square, none, none, none⟩)
        else (gs, ui)
      | none => (gs, ui)
    | some sel =>
      if sel = square then (gs, ⟨none, none, none, none⟩)
      else
        match ui.builderActive with
        | some sp => builderStep gs ui pc square now rng sp
        | none =>
          match ui.awaitingSwapSource with
          | some src => swapStep gs ui pc square now rng src
          | none =>
            match ui.sniperAttacker with
            | some satk => sniperStep gs ui pc square now rng satk
            | none =>
              if (gs.walls square).isSome then catchPath gs pc square
              else
                let sourceMod := gs.modifiers sel
                let isGhost : Bool :=
                  match sourceMod with
                  | some m => m.type == UpgradeKind.ghost
                  | none => false
                if isGhost then
                  if ghostValid then
                    let bw := ghostExec gs pc sel square
                    movePost gs ui pc sel square now elapsed rng bw.1 bw.2
                      sourceMod checkmate "[GHOST]"
                  else catchPath gs pc square
                else
                  match ext with
                  | some res =>
                    movePost gs ui pc sel square now elapsed rng res.newBoard
                      gs.winner sourceMod checkmate res.san
                  | none => catchPath gs pc square

/-! ## Spec-side characterization of the relocation pass

These definitions follow the wording of the specification: "compute the
set of currently-occupied squares holding the maximum piece value; among
the upgrade's orthogonal neighbors plus its own square (5 candidates),
choose the one maximizing the sum of Manhattan distances to every
maximum-value square, restricted to squares with no piece and no other
upgrade; ties broken by enumeration order (stay > +x > -x > +y > -y); if
no legal candidate exists, the upgrade does not move." -/

/-- Maximum piece value over the occupied cells of `L`, starting from `m`. -/
def maxFrom (board : Board) (L : List (Nat × Nat)) (m : Int) : Int :=
  L.foldl
    (fun a rc =>
      match board rc.1 rc.2 with
      | none => a
      | some p => max a (pieceValue p.ptype))
    m

/-- Value of a cell (0 when empty). -/
def cellVal (board : Board) (rc : Nat × Nat) : Int :=
  match board rc.1 rc.2 with
  | some p => pieceValue p.ptype
  | none => 0

/-- The occupied cells of `L` whose piece value equals `v`, as `(x, y)`
pairs in traversal order. -/
def eqCells (board : Board) (L : List (Nat × Nat)) (v : Int) : List (Nat × Nat) :=
  (L.filter (fun rc => (board rc.1 rc.2).isSome && cellVal board rc == v)).map
    (fun rc => (rc.2, rc.1))

/-- The maximum piece value present on the board (`-1` when empty). -/
def specMaxVal (board : Board) : Int := maxFrom board allCells (-1)

/-- The currently-occupied squares holding the maximum piece value. -/
def maxValueSquares (board : Board) : List (Nat × Nat) :=
  eqCells board allCells (specMaxVal board)

/-- Sum of Manhattan distances from a point to every maximum-value square. -/
def specScore (board : Board) (pos : Int × Int) : Int :=
  distSum (maxValueSquares board) pos

/-- A legal relocation candidate: inside the 8×8 board, no piece on it,
and no other upgrade on it. -/
def legalCand (board : Board) (u : UpgradeEntity) (all : List UpgradeEntity)
    (p : Int × Int) : Bool :=
  decide (0 ≤ p.1) && decide (p.1 ≤ 7) && decide (0 ≤ p.2) && decide (p.2 ≤ 7)
    && (board p.2.toNat p.1.toNat).isNone
    && !(all.any (fun u2 => u2.id != u.id && u2.x == p.1 && u2.y == p.2))

/-- The five candidate squares of an upgrade: its own square and its four
orthogonal neighbours, in tie-break order stay > +x > -x > +y > -y. -/
def candList (u : UpgradeEntity) : List (Int × Int) :=
  cowCandidates.map (fun mv => (u.x + mv.1, u.y + mv.2))

/-- One step of a guarded first-strict-improvement selection:
the abstract shape of the candidate loop of `moveUpgradeCowardly`. -/
def selStep {α β : Type} (legal : α → Bool) (s : α → Int) (f : α → β)
    (acc : β × Int) (c : α) : β × Int :=
  if legal c then (if s c > acc.2 then (f c, s c) else acc) else acc

/-- One step of a plain first-maximizer selection. -/
def pickStep {α : Type} (s : α → Int) (b c : α) : α :=
  if s c > s b then c else b

/-- First maximizer of `s` in a list (ties broken toward the front). -/
def pickFirstMax (s : Int × Int → Int) : List (Int × Int) → Option (Int × Int)
  | [] => none
  | x :: xs => some (xs.foldl (pickStep s) x)

/-- The destination the specification prescribes for one upgrade. -/
def cowardlySpecPos (board : Board) (u : UpgradeEntity)
    (all : List UpgradeEntity) : Int × Int :=
  match pickFirstMax (specScore board) ((candList u).filter (legalCand board u all)) with
  | some p => p
  | none => (u.x, u.y)

/-- The rejection-path interaction state: selection moves to the clicked
square when it holds a friendly piece and clears otherwise; every
pending ability mode is cleared. -/
def selUi (gs : GameState) (pc : Color) (square : Square) : UiState :=
  match getSq gs.board square with
  | some p =>
    if p.color = pc then ⟨some square, none, none, none⟩
    else ⟨none, none, none, none⟩
  | none => ⟨none, none, none, none⟩

/-- The 64 genuine board squares, as `(fileIndex, rankIndex)` pairs. -/
def allSquares : List Square :=
  (List.range 8).flatMap (fun f => (List.range 8).map (fun r => (f, r)))

/-- The spec invariant "a modifier can only exist on a square occupied by
a piece", over genuine board squares. -/
def ModOnPieces (gs : GameState) : Prop :=
  ∀ sq ∈ allSquares, (gs.modifiers sq).isSome → (getSq gs.board sq).isSome

/-! ## Concrete positions and states used by witnesses and counterexamples -/

def wPawn : Piece := ⟨Color.w, Ptype.p⟩
def bPawn : Piece := ⟨Color.b, Ptype.p⟩
def wKing : Piece := ⟨Color.w, Ptype.k⟩
def bKing : Piece := ⟨Color.b, Ptype.k⟩
def wQueen : Piece := ⟨Color.w, Ptype.q⟩
def wRook : Piece := ⟨Color.w, Ptype.r⟩
def bKnight : Piece := ⟨Color.b, Ptype.n⟩

/-- A fixed spare randomness stream. -/
def rng0 : Rng := fun _ => (0, 0, "z")

/-- A position with a white queen on e4 and the two kings in corners. -/
def c1board : Board :=
  bset (bset (bset emptyBoard 4 4 (some wQueen)) 0 0 (some bKing)) 7 7 (some wKing)

def c1u : UpgradeEntity := ⟨"a", 3, 3, UpgradeKind.ghost⟩

def c1all : List UpgradeEntity :=
  [⟨"a", 3, 3, UpgradeKind.ghost⟩, ⟨"b", 3, 4, UpgradeKind.swap⟩]

/-- Five black pawns hemming in the two upgrades of the C4 scenario:
cells `(r, c)` = (0,0), (1,0), (0,2), (0,3), (1,2). -/
def c4board : Board :=
  bset (bset (bset (bset (bset emptyBoard 0 0 (some bPawn))
    1 0 (some bPawn)) 0 2 (some bPawn))
    0 3 (some bPawn)) 1 2 (some bPawn)

def c4A : UpgradeEntity := ⟨"a", 0, 0, UpgradeKind.ghost⟩
def c4B : UpgradeEntity := ⟨"b", 2, 0, UpgradeKind.ghost⟩

/-- The entity produced by `spawnUpgrade` on an empty board from the zero
randomness draw. -/
def c8u : UpgradeEntity := ⟨"x", 0, 0, UpgradeKind.double_move⟩

/-- A lone white king on e4 (cell (4,4)). -/
def c9board : Board := bset emptyBoard 4 4 (some wKing)

def c9ups : List UpgradeEntity := [⟨"a", 0, 0, UpgradeKind.sniper⟩]

/-- The kings in opposite corners: white a1 (cell (7,0)), black h8 (cell (0,7)). -/
def kingsBoard : Board :=
  bset (bset emptyBoard 7 0 (some wKing)) 0 7 (some bKing)

/-- Two upgrades parked on free squares away from the action. -/
def parkedUps : List UpgradeEntity :=
  [⟨"u1", 0, 5, UpgradeKind.hidden_move⟩, ⟨"u2", 7, 5, UpgradeKind.martyrdom⟩]

/-- C2 counterexample: a white queen on d4 carrying a fired sniper, a black
knight on f5 in range. -/
def c2board : Board := bset (bset kingsBoard 4 3 (some wQueen)) 3 5 (some bKnight)

def c2gs : GameState :=
  ⟨c2board, Color.w, parkedUps, mset (fun _ => none) (3, 3) (some ⟨UpgradeKind.sniper, Color.w⟩),
   fun _ => none, none, ⟨300, 3⟩, fun _ => 100, some 0, []⟩

def c2ui : UiState := ⟨some (3, 3), none, some (3, 3), none⟩

/-- C3 counterexample (Scenario D): a white queen on d4 carrying a fired
sniper, the black king on g7 at Chebyshev distance 3. -/
def c3board : Board :=
  bset (bset (bset emptyBoard 7 0 (some wKing)) 1 6 (some bKing)) 4 3 (some wQueen)

def c3gs : GameState :=
  ⟨c3board, Color.w, parkedUps, mset (fun _ => none) (3, 3) (some ⟨UpgradeKind.sniper, Color.w⟩),
   fun _ => none, none, ⟨300, 3⟩, fun _ => 100, some 0, []⟩

def c3ui : UiState := ⟨some (3, 3), none, some (3, 3), none⟩

/-- C5 counterexample: as C3, but the sniped black knight on g7 carries a
martyrdom modifier. -/
def c5board : Board := bset (bset kingsBoard 4 3 (some wQueen)) 1 6 (some bKnight)

def c5mods : ModMap :=
  mset (mset (fun _ => none) (3, 3) (some ⟨UpgradeKind.sniper, Color.w⟩))
    (6, 6) (some ⟨UpgradeKind.martyrdom, Color.b⟩)

def c5gs : GameState :=
  ⟨c5board, Color.w, parkedUps, c5mods, fun _ => none, none, ⟨300, 3⟩,
   fun _ => 100, some 0, []⟩

def c5ui : UiState := ⟨some (3, 3), none, some (3, 3), none⟩

/-- C6 failing input: a white rook on e4 (cell (4,4)) carrying a
necromancer modifier captures the black pawn on d5 (cell (3,3)). -/
def c6board : Board := bset (bset kingsBoard 4 4 (some wRook)) 3 3 (some bPawn)

def c6gs : GameState :=
  ⟨c6board, Color.w, parkedUps,
   mset (fun _ => none) (4, 3) (some ⟨UpgradeKind.necromancer, Color.w⟩),
   fun _ => none, none, ⟨300, 3⟩, fun _ => 100, some 0, []⟩

def c6ui : UiState := ⟨some (4, 3), none, none, none⟩

/-- The external move answer for C6: the rook leaves e4 and captures on d5. -/
def c6ext : ExtMove :=
  ⟨bset (bset c6board 4 4 none) 3 3 (some wRook), true, "Rxd5"⟩

/-- C7 counterexample: swap mode fired from the white pawn on e2
(cell (6,4)); the clicked square e7 (cell (1,4)) holds a black pawn. -/
def c7board : Board := bset (bset kingsBoard 6 4 (some wPawn)) 1 4 (some bPawn)

def c7gs : GameState :=
  ⟨c7board, Color.w, parkedUps, mset (fun _ => none) (4, 1) (some ⟨UpgradeKind.swap, Color.w⟩),
   fun _ => none, none, ⟨300, 3⟩, fun _ => 100, some 0, []⟩

def c7ui : UiState := ⟨some (4, 1), some (4, 1), none, none⟩

/-- C10 witness: a white rook on e4 with no modifier captures the black
pawn on d5, which carries a `time_add` modifier. -/
def c10gs : GameState :=
  ⟨c6board, Color.w, parkedUps,
   mset (fun _ => none) (3, 4) (some ⟨UpgradeKind.time_add, Color.b⟩),
   fun _ => none, none, ⟨300, 3⟩, fun _ => 100, some 0, []⟩

def c10ui : UiState := ⟨some (4, 3), none, none, none⟩

/-! ## Helper lemmas: the highest-value-piece scan -/

/-- Piece values are nonnegative. -/
lemma pieceValue_nonneg (t : Ptype) : 0 ≤ pieceValue t := by
  cases t <;> simp [pieceValue]

lemma maxFrom_cons_none {board : Board} {rc : Nat × Nat} {L : List (Nat × Nat)}
    {m : Int} (hb : board rc.1 rc.2 = none) :
    maxFrom board (rc :: L) m = maxFrom board L m := by
  simp [maxFrom, hb]

lemma maxFrom_cons_some {board : Board} {rc : Nat × Nat} {L : List (Nat × Nat)}
    {m : Int} {p : Piece} (hb : board rc.1 rc.2 = some p) :
    maxFrom board (rc :: L) m = maxFrom board L (max m (pieceValue p.ptype)) := by
  simp [maxFrom, hb]

/-- The running maximum never decreases below its seed. -/
lemma le_maxFrom (board : Board) : ∀ (L : List (Nat × Nat)) (m : Int),
    m ≤ maxFrom board L m := by
  intro L
  induction L with
  | nil => intro m; simp [maxFrom]
  | cons rc L ih =>
    intro m
    cases hb : board rc.1 rc.2 with
    | none => rw [maxFrom_cons_none hb]; exact ih m
    | some p =>
      rw [maxFrom_cons_some hb]
      exact le_trans (le_max_left _ _) (ih _)

lemma eqCells_cons_none {board : Board} {rc : Nat × Nat} {L : List (Nat × Nat)}
    {v : Int} (hb : board rc.1 rc.2 = none) :
    eqCells board (rc :: L) v = eqCells board L v := by
  simp [eqCells, hb]

lemma eqCells_cons_some_eq {board : Board} {rc : Nat × Nat} {L : List (Nat × Nat)}
    {v : Int} {p : Piece} (hb : board rc.1 rc.2 = some p)
    (hv : pieceValue p.ptype = v) :
    eqCells board (rc :: L) v = (rc.2, rc.1) :: eqCells board L v := by
  simp [eqCells, cellVal, hb, hv]

lemma eqCells_cons_some_ne {board : Board} {rc : Nat × Nat} {L : List (Nat × Nat)}
    {v : Int} {p : Piece} (hb : board rc.1 rc.2 = some p)
    (hv : pieceValue p.ptype ≠ v) :
    eqCells board (rc :: L) v = eqCells board L v := by
  simp [eqCells, cellVal, hb, hv]

/-- Characterization of the `maxVal`/`targets` fold of `moveUpgradeCowardly`:
it computes the running maximum together with the occupied cells
attaining it. -/
lemma collect_foldl_char (board : Board) :
    ∀ (L : List (Nat × Nat)) (m : Int) (ts : List (Nat × Nat)),
      L.foldl (collectStep board) (m, ts) =
        (maxFrom board L m,
         if maxFrom board L m = m then ts ++ eqCells board L m
         else eqCells board L (maxFrom board L m)) := by
  intro L
  induction L with
  | nil => intro m ts; simp [maxFrom, eqCells]
  | cons rc L ih =>
    intro m ts
    rw [List.foldl_cons]
    cases hb : board rc.1 rc.2 with
    | none =>
      rw [show collectStep board (m, ts) rc = (m, ts) by simp [collectStep, hb]]
      rw [ih m ts, maxFrom_cons_none hb]
      by_cases hm : maxFrom board L m = m
      · simp [hm, eqCells_cons_none hb]
      · simp [hm, eqCells_cons_none hb]
    | some p =>
      rcases lt_trichotomy (pieceValue p.ptype) m with hlt | heq | hgt
      · rw [show collectStep board (m, ts) rc = (m, ts) by
          simp [collectStep, hb, not_lt.mpr (le_of_lt hlt), ne_of_lt hlt]]
        rw [ih m ts, maxFrom_cons_some hb, max_eq_left (le_of_lt hlt)]
        have hne : pieceValue p.ptype ≠ maxFrom board L m :=
          ne_of_lt (lt_of_lt_of_le hlt (le_maxFrom board L m))
        by_cases hm : maxFrom board L m = m
        · simp [hm, eqCells_cons_some_ne hb (hm ▸ hne)]
        · simp [hm, eqCells_cons_some_ne hb hne]
      · rw [show collectStep board (m, ts) rc = (m, ts ++ [(rc.2, rc.1)]) by
          simp [collectStep, hb, heq]]
        rw [ih m (ts ++ [(rc.2, rc.1)]), maxFrom_cons_some hb,
          max_eq_left (le_of_eq heq)]
        by_cases hm : maxFrom board L m = m
        · rw [if_pos hm, if_pos hm, eqCells_cons_some_eq hb (heq.trans hm.symm ▸ heq)]
          · simp [hm]
        · have hne : pieceValue p.ptype ≠ maxFrom board L m := by
            rw [heq]; exact fun hc => hm hc.symm
          rw [if_neg hm, if_neg hm, eqCells_cons_some_ne hb hne]
      · rw [show collectStep board (m, ts) rc = (pieceValue p.ptype, [(rc.2, rc.1)]) by
          simp [collectStep, hb, hgt]]
        rw [ih (pieceValue p.ptype) [(rc.2, rc.1)], maxFrom_cons_some hb,
          max_eq_right (le_of_lt hgt)]
        have hMge : pieceValue p.ptype ≤ maxFrom board L (pieceValue p.ptype) :=
          le_maxFrom board L _
        have hMne : maxFrom board L (pieceValue p.ptype) ≠ m :=
          ne_of_gt (lt_of_lt_of_le hgt hMge)
        rw [if_neg hMne]
        by_cases hm : maxFrom board L (pieceValue p.ptype) = pieceValue p.ptype
        · rw [if_pos hm, hm, eqCells_cons_some_eq hb rfl]
          simp
        · rw [if_neg hm, eqCells_cons_some_ne hb (fun hc => hm hc.symm)]

/-- Cells can never hold a negative value, so no cell matches `-1`. -/
lemma eqCells_neg (board : Board) (L : List (Nat × Nat)) (v : Int) (hv : v < 0) :
    eqCells board L v = [] := by
  unfold eqCells
  rw [List.map_eq_nil_iff]
  rw [List.filter_eq_nil_iff]
  intro rc _
  cases hb : board rc.1 rc.2 with
  | none => simp [hb]
  | some p =>
    have := pieceValue_nonneg p.ptype
    simp only [hb, cellVal, Option.isSome_some, Bool.true_and, beq_iff_eq]
    omega

/-- The running maximum is either its seed or attained at an occupied cell. -/
lemma maxFrom_attained (board : Board) : ∀ (L : List (Nat × Nat)) (m : Int),
    maxFrom board L m = m ∨
      ∃ rc ∈ L, ∃ p, board rc.1 rc.2 = some p ∧
        pieceValue p.ptype = maxFrom board L m := by
  intro L
  induction L with
  | nil => intro m; left; simp [maxFrom]
  | cons rc L ih =>
    intro m
    cases hb : board rc.1 rc.2 with
    | none =>
      rw [maxFrom_cons_none hb]
      rcases ih m with h | ⟨rc', h1, p, h2, h3⟩
      · exact Or.inl h
      · exact Or.inr ⟨rc', List.mem_cons_of_mem _ h1, p, h2, h3⟩
    | some p =>
      rw [maxFrom_cons_some hb]
      rcases ih (max m (pieceValue p.ptype)) with h | ⟨rc', h1, p', h2, h3⟩
      · rcases max_cases m (pieceValue p.ptype) with ⟨hmax, _⟩ | ⟨hmax, _⟩
        · exact Or.inl (by rw [h, hmax])
        · exact Or.inr ⟨rc, List.mem_cons_self _ _, p, hb, by rw [h, hmax]⟩
      · exact Or.inr ⟨rc', List.mem_cons_of_mem _ h1, p', h2, h3⟩

/-- The seeds of the running maximum are monotone in list extension:
an occupied member bounds the result from below. -/
lemma maxFrom_ge_mem (board : Board) : ∀ (L : List (Nat × Nat)) (m : Int)
    (rc : Nat × Nat), rc ∈ L → ∀ p, board rc.1 rc.2 = some p →
    pieceValue p.ptype ≤ maxFrom board L m := by
  intro L
  induction L with
  | nil => intro m rc h; simp at h
  | cons rc0 L ih =>
    intro m rc hmem p hp
    rcases List.mem_cons.mp hmem with heq | htl
    · subst heq
      rw [maxFrom_cons_some hp]
      exact le_trans (le_max_right _ _) (le_maxFrom board L _)
    · cases hb : board rc0.1 rc0.2 with
      | none => rw [maxFrom_cons_none hb]; exact ih m rc htl p hp
      | some p0 => rw [maxFrom_cons_some hb]; exact ih _ rc htl p hp

/-- If no square holds the maximum value, the board is empty. -/
lemma maxValueSquares_nil (board : Board) (h : maxValueSquares board = []) :
    ∀ rc ∈ allCells, board rc.1 rc.2 = none := by
  intro rc hrc
  cases hb : board rc.1 rc.2 with
  | none => rfl
  | some p =>
    exfalso
    have hge : pieceValue p.ptype ≤ specMaxVal board :=
      maxFrom_ge_mem board allCells (-1) rc hrc p hb
    have hpos : (0 : Int) ≤ specMaxVal board :=
      le_trans (pieceValue_nonneg p.ptype) hge
    rcases maxFrom_attained board allCells (-1) with hm | ⟨rc', h1, p', h2, h3⟩
    · rw [specMaxVal] at hpos
      omega
    · have hmem : rc' ∈
          allCells.filter (fun rc => (board rc.1 rc.2).isSome && cellVal board rc == specMaxVal board) := by
        rw [List.mem_filter]
        refine ⟨h1, ?_⟩
        simp [h2, cellVal, specMaxVal, h3]
      have : (rc'.2, rc'.1) ∈ maxValueSquares board := by
        rw [maxValueSquares, eqCells]
        exact List.mem_map_of_mem _ hmem
      rw [h] at this
      simp at this

/-- The target scan of `moveUpgradeCowardly` computes exactly the
specification's maximum value and maximum-value square list. -/
lemma collectTargets_eq (board : Board) :
    collectTargets board = (specMaxVal board, maxValueSquares board) := by
  rw [collectTargets, collect_foldl_char board allCells (-1) []]
  by_cases hm : maxFrom board allCells (-1) = -1
  · rw [if_pos hm, specMaxVal, maxValueSquares, hm, specMaxVal, hm]
    rw [eqCells_neg board allCells (-1) (by omega)]
    simp
  · rw [if_neg hm, specMaxVal, maxValueSquares, specMaxVal]

/-! ## Helper lemmas: the best-candidate selection fold -/

lemma selfold_seeded {α β : Type} (legal : α → Bool) (s : α → Int) (f : α → β) :
    ∀ (L : List α) (b : α),
      L.foldl (selStep legal s f) (f b, s b) =
        (f ((L.filter legal).foldl (pickStep s) b),
         s ((L.filter legal).foldl (pickStep s) b)) := by
  intro L
  induction L with
  | nil => intro b; simp
  | cons c L ih =>
    intro b
    rw [List.foldl_cons]
    by_cases hc : legal c = true
    · rw [List.filter_cons_of_pos hc, List.foldl_cons]
      by_cases hd : s c > s b
      · rw [show selStep legal s f (f b, s b) c = (f c, s c) by
            unfold selStep; rw [if_pos hc, if_pos hd],
          show pickStep s b c = c by unfold pickStep; rw [if_pos hd], ih c]
      · rw [show selStep legal s f (f b, s b) c = (f b, s b) by
            unfold selStep; rw [if_pos hc, if_neg hd],
          show pickStep s b c = b by unfold pickStep; rw [if_neg hd], ih b]
    · rw [show selStep legal s f (f b, s b) c = (f b, s b) by
          unfold selStep; rw [if_neg hc],
        List.filter_cons_of_neg (by simpa using hc), ih b]

lemma selfold_char {α β : Type} (legal : α → Bool) (s : α → Int) (f : α → β)
    (hs : ∀ c, legal c = true → 0 ≤ s c) :
    ∀ (L : List α) (b0 : β),
      (L.foldl (selStep legal s f) (b0, -1)).1 =
        match L.filter legal with
        | [] => b0
        | c :: rest => f (rest.foldl (pickStep s) c) := by
  intro L
  induction L with
  | nil => intro b0; rfl
  | cons c L ih =>
    intro b0
    rw [List.foldl_cons]
    by_cases hc : legal c = true
    · have hsc : s c > (-1 : Int) := by have := hs c hc; omega
      rw [show selStep legal s f (b0, -1) c = (f c, s c) by
          unfold selStep; rw [if_pos hc, if_pos hsc],
        List.filter_cons_of_pos hc, selfold_seeded legal s f L c]
    · rw [show selStep legal s f (b0, -1) c = (b0, -1) by
          unfold selStep; rw [if_neg hc],
        List.filter_cons_of_neg (by simpa using hc), ih b0]

lemma pickfold_map {α β : Type} (g : α → β) (t : β → Int) :
    ∀ (rest : List α) (c : α),
      (rest.map g).foldl (pickStep t) (g c) =
        g (rest.foldl (pickStep (fun a => t (g a))) c) := by
  intro rest
  induction rest with
  | nil => intro c; rfl
  | cons d rest ih =>
    intro c
    rw [List.map_cons, List.foldl_cons, List.foldl_cons]
    by_cases hd : t (g d) > t (g c)
    · rw [show pickStep t (g c) (g d) = g d by unfold pickStep; rw [if_pos hd],
        show pickStep (fun a => t (g a)) c d = d by unfold pickStep; rw [if_pos hd], ih d]
    · rw [show pickStep t (g c) (g d) = g c by unfold pickStep; rw [if_neg hd],
        show pickStep (fun a => t (g a)) c d = c by unfold pickStep; rw [if_neg hd], ih c]

lemma pickfold_const {α : Type} (t : α → Int) :
    ∀ (rest : List α) (b : α), (∀ d ∈ rest, t d ≤ t b) →
      rest.foldl (pickStep t) b = b := by
  intro rest
  induction rest with
  | nil => intro b _; rfl
  | cons d rest ih =>
    intro b h
    rw [List.foldl_cons, show pickStep t b d = b by
      unfold pickStep; rw [if_neg (not_lt.mpr (h d (List.mem_cons_self _ _)))]]
    exact ih b (fun d' hd' => h d' (List.mem_cons_of_mem _ hd'))

lemma manhattan_nonneg (a b : Int × Int) : 0 ≤ manhattan a b := by
  unfold manhattan
  have h1 : (0 : Int) ≤ ((a.1 - b.1).natAbs : Int) := Int.natCast_nonneg _
  have h2 : (0 : Int) ≤ ((a.2 - b.2).natAbs : Int) := Int.natCast_nonneg _
  omega

lemma distSum_nonneg (ts : List (Nat × Nat)) (pos : Int × Int) :
    0 ≤ distSum ts pos := by
  suffices h : ∀ (L : List (Nat × Nat)) (a : Int),
      a ≤ L.foldl (fun s t => s + manhattan pos ((t.1 : Int), (t.2 : Int))) a by
    exact h ts 0
  intro L
  induction L with
  | nil => intro a; simp
  | cons t L ih =>
    intro a
    rw [List.foldl_cons]
    refine le_trans ?_ (ih _)
    have := manhattan_nonneg pos ((t.1 : Int), (t.2 : Int))
    omega

/-- The candidate loop body of `moveUpgradeCowardly` is the guarded
selection step for the specification's legality predicate and distance
score. -/
lemma cowStep_eq (board : Board) (u : UpgradeEntity) (all : List UpgradeEntity)
    (targets : List (Nat × Nat)) (acc : (Int × Int) × Int) (mv : Int × Int) :
    cowStep board u all targets acc mv =
      selStep (fun mv => legalCand board u all (u.x + mv.1, u.y + mv.2))
        (fun mv => distSum targets (u.x + mv.1, u.y + mv.2))
        (fun mv => (u.x + mv.1, u.y + mv.2)) acc mv := by
  unfold cowStep selStep
  by_cases h1 : u.x + mv.1 < 0 ∨ 7 < u.x + mv.1 ∨ u.y + mv.2 < 0 ∨ 7 < u.y + mv.2
  · rw [if_pos h1]
    have hl : legalCand board u all (u.x + mv.1, u.y + mv.2) = false := by
      unfold legalCand
      rcases h1 with h | h | h | h
      · rw [decide_eq_false (by omega : ¬ (0 : Int) ≤ u.x + mv.1)]; simp
      · rw [decide_eq_false (by omega : ¬ u.x + mv.1 ≤ 7)]; simp
      · rw [decide_eq_false (by omega : ¬ (0 : Int) ≤ u.y + mv.2)]; simp
      · rw [decide_eq_false (by omega : ¬ u.y + mv.2 ≤ 7)]; simp
    simp only [hl]
    rfl
  · rw [if_neg h1]
    push_neg at h1
    obtain ⟨hb1, hb2, hb3, hb4⟩ := h1
    by_cases h2 : (board (u.y + mv.2).toNat (u.x + mv.1).toNat).isSome = true
    · rw [if_pos h2]
      have hl : legalCand board u all (u.x + mv.1, u.y + mv.2) = false := by
        unfold legalCand
        have hn : (board (u.y + mv.2).toNat (u.x + mv.1).toNat).isNone = false := by
          rcases Option.isSome_iff_exists.mp h2 with ⟨p, hp⟩
          simp [hp]
        simp [hn]
      simp only [hl]
      rfl
    · rw [if_neg h2]
      by_cases h3 : (all.any fun u2 =>
          u2.id != u.id && u2.x == u.x + mv.1 && u2.y == u.y + mv.2) = true
      · rw [if_pos h3]
        have hl : legalCand board u all (u.x + mv.1, u.y + mv.2) = false := by
          unfold legalCand
          simp [h3]
        simp only [hl]
        rfl
      · rw [if_neg h3]
        have hl : legalCand board u all (u.x + mv.1, u.y + mv.2) = true := by
          unfold legalCand
          simp only [Bool.and_eq_true, Bool.not_eq_true']
          refine ⟨⟨⟨⟨⟨?_, ?_⟩, ?_⟩, ?_⟩, ?_⟩, ?_⟩
          · exact decide_eq_true hb1
          · exact decide_eq_true hb2
          · exact decide_eq_true hb3
          · exact decide_eq_true hb4
          · rw [Option.isNone_iff_eq_none, ← Option.not_isSome_iff_eq_none]
            simpa using h2
          · simpa using h3
        simp only [hl]
        rfl

lemma mem_allCells {r c : Nat} (hr : r < 8) (hc : c < 8) : (r, c) ∈ allCells := by
  unfold allCells
  rw [List.mem_flatMap]
  exact ⟨r, List.mem_range.mpr hr, by
    rw [List.mem_map]
    exact ⟨c, List.mem_range.mpr hc, rfl⟩⟩

lemma filter_map_comm {α β : Type} (g : α → β) (p : β → Bool) :
    ∀ (l : List α), (l.map g).filter p = (l.filter (fun a => p (g a))).map g := by
  intro l
  induction l with
  | nil => rfl
  | cons a l ih =>
    rw [List.map_cons]
    by_cases ha : p (g a) = true
    · rw [List.filter_cons_of_pos ha, List.filter_cons_of_pos (by simpa using ha),
        List.map_cons, ih]
    · rw [List.filter_cons_of_neg (by simpa using ha),
        List.filter_cons_of_neg (by simpa using ha), ih]

lemma list_map_self {α : Type} (f : α → α) :
    ∀ (l : List α), (∀ a ∈ l, f a = a) → l.map f = l := by
  intro l
  induction l with
  | nil => intro _; rfl
  | cons a l ih =>
    intro h
    rw [List.map_cons, h a (List.mem_cons_self _ _),
      ih (fun a' ha' => h a' (List.mem_cons_of_mem _ ha'))]

/-- When the upgrade's own square is a legal candidate and no candidate
scores strictly higher, the specification keeps the upgrade in place. -/
lemma cowardlySpecPos_stay (board : Board) (u : UpgradeEntity)
    (all : List UpgradeEntity)
    (hstay : legalCand board u all (u.x, u.y) = true)
    (hmax : ∀ p ∈ candList u, legalCand board u all p = true →
      specScore board p ≤ specScore board (u.x, u.y)) :
    cowardlySpecPos board u all = (u.x, u.y) := by
  unfold cowardlySpecPos
  have hcl : candList u = (u.x, u.y) ::
      [(u.x + 1, u.y), (u.x + -1, u.y), (u.x, u.y + 1), (u.x, u.y + -1)] := by
    simp [candList, cowCandidates]
  have hrest : ∀ d ∈ List.filter (legalCand board u all)
      [(u.x + 1, u.y), (u.x + -1, u.y), (u.x, u.y + 1), (u.x, u.y + -1)],
      specScore board d ≤ specScore board (u.x, u.y) := by
    intro d hd
    have hd' := List.mem_filter.mp hd
    refine hmax d ?_ hd'.2
    rw [hcl]
    exact List.mem_cons_of_mem _ hd'.1
  rw [hcl, List.filter_cons_of_pos hstay]
  simp only [pickFirstMax]
  rw [pickfold_const (specScore board) _ (u.x, u.y) hrest]

lemma candList_filter (board : Board) (u : UpgradeEntity) (all : List UpgradeEntity) :
    (candList u).filter (legalCand board u all) =
      (cowCandidates.filter (fun mv => legalCand board u all (u.x + mv.1, u.y + mv.2))).map
        (fun mv => (u.x + mv.1, u.y + mv.2)) := by
  unfold candList
  rw [filter_map_comm]

/-- **C1.**  For every board position and upgrade list (with the upgrade on
the 8×8 board and no other upgrade sharing its square), the relocation
("cowardly") move sends the upgrade exactly to the square prescribed by
the specification: the candidate among its four orthogonal neighbours
plus its own square maximizing the summed Manhattan distance to all
maximum-piece-value squares, restricted to in-bounds, piece-free,
upgrade-free squares, ties broken stay > +x > -x > +y > -y, keeping its
position when no candidate is legal. -/
theorem moveUpgradeCowardly_matches_spec (board : Board) (u : UpgradeEntity)
    (all : List UpgradeEntity)
    (hx0 : 0 ≤ u.x) (hx7 : u.x ≤ 7) (hy0 : 0 ≤ u.y) (hy7 : u.y ≤ 7)
    (hown : (all.any fun u2 => u2.id != u.id && u2.x == u.x && u2.y == u.y) = false) :
    moveUpgradeCowardly u board all =
      { u with x := (cowardlySpecPos board u all).1,
               y := (cowardlySpecPos board u all).2 } := by
  simp only [moveUpgradeCowardly]
  rw [collectTargets_eq]
  by_cases hMV : maxValueSquares board = []
  · rw [if_pos (by rw [hMV]; rfl)]
    have hfree : board u.y.toNat u.x.toNat = none := by
      have hmem : (u.y.toNat, u.x.toNat) ∈ allCells :=
        mem_allCells (by omega) (by omega)
      exact maxValueSquares_nil board hMV _ hmem
    have hstay : legalCand board u all (u.x, u.y) = true := by
      unfold legalCand
      simp only [Bool.and_eq_true, Bool.not_eq_true']
      refine ⟨⟨⟨⟨⟨decide_eq_true hx0, decide_eq_true hx7⟩, decide_eq_true hy0⟩,
        decide_eq_true hy7⟩, ?_⟩, ?_⟩
      · simp [hfree]
      · simpa using hown
    have hspec : cowardlySpecPos board u all = (u.x, u.y) := by
      apply cowardlySpecPos_stay board u all hstay
      intro p _ _
      simp [specScore, hMV, distSum]
    rw [hspec]
  · rw [if_neg (by simpa [List.isEmpty_iff] using hMV)]
    have hstep : cowStep board u all (maxValueSquares board) =
        selStep (fun mv => legalCand board u all (u.x + mv.1, u.y + mv.2))
          (fun mv => distSum (maxValueSquares board) (u.x + mv.1, u.y + mv.2))
          (fun mv => (u.x + mv.1, u.y + mv.2)) := by
      funext acc mv
      exact cowStep_eq board u all (maxValueSquares board) acc mv
    rw [hstep]
    have hchar := selfold_char
      (fun mv => legalCand board u all (u.x + mv.1, u.y + mv.2))
      (fun mv => distSum (maxValueSquares board) (u.x + mv.1, u.y + mv.2))
      (fun mv => (u.x + mv.1, u.y + mv.2))
      (fun c _ => distSum_nonneg _ _) cowCandidates (u.x, u.y)
    rw [hchar]
    cases hfl : cowCandidates.filter
        (fun mv => legalCand board u all (u.x + mv.1, u.y + mv.2)) with
    | nil =>
      have hs0 : cowardlySpecPos board u all = (u.x, u.y) := by
        unfold cowardlySpecPos
        rw [candList_filter, hfl]
        rfl
      rw [hs0]
    | cons c rest =>
      have hs1 : cowardlySpecPos board u all =
          (u.x + (rest.foldl
              (pickStep (fun mv => distSum (maxValueSquares board)
                (u.x + mv.1, u.y + mv.2))) c).1,
           u.y + (rest.foldl
              (pickStep (fun mv => distSum (maxValueSquares board)
                (u.x + mv.1, u.y + mv.2))) c).2) := by
        unfold cowardlySpecPos
        rw [candList_filter, hfl, List.map_cons]
        simp only [pickFirstMax]
        rw [pickfold_map (fun mv => (u.x + mv.1, u.y + mv.2)) (specScore board) rest c]
        rfl
      rw [hs1]

/-- **C9.**  If every upgrade sits on an in-bounds, piece-free square not
shared with another upgrade, and no legal candidate square (its four
orthogonal neighbours and its own square, in-bounds, piece-free,
upgrade-free) scores a strictly larger summed Manhattan distance to the
maximum-piece-value squares than its own square, then the relocation
pass leaves every upgrade exactly where it is. -/
theorem relocationPass_idempotent (board : Board) (ups : List UpgradeEntity)
    (h : ∀ u ∈ ups,
      (0 ≤ u.x ∧ u.x ≤ 7 ∧ 0 ≤ u.y ∧ u.y ≤ 7) ∧
      board u.y.toNat u.x.toNat = none ∧
      (ups.any fun u2 => u2.id != u.id && u2.x == u.x && u2.y == u.y) = false ∧
      (∀ p ∈ candList u, legalCand board u ups p = true →
        specScore board p ≤ specScore board (u.x, u.y))) :
    relocationPass board ups = ups := by
  unfold relocationPass
  apply list_map_self
  intro u hu
  obtain ⟨⟨hx0, hx7, hy0, hy7⟩, hfree, hown, hmax⟩ := h u hu
  rw [moveUpgradeCowardly_matches_spec board u ups hx0 hx7 hy0 hy7 hown]
  have hstay : legalCand board u ups (u.x, u.y) = true := by
    unfold legalCand
    simp only [Bool.and_eq_true, Bool.not_eq_true']
    refine ⟨⟨⟨⟨⟨decide_eq_true hx0, decide_eq_true hx7⟩, decide_eq_true hy0⟩,
      decide_eq_true hy7⟩, ?_⟩, ?_⟩
    · simp [hfree]
    · simpa using hown
  rw [cowardlySpecPos_stay board u ups hstay hmax]

/-- Witness for C1: the equivalence evaluated at a concrete position. -/
theorem moveUpgradeCowardly_matches_spec_witness :
    moveUpgradeCowardly c1u c1board c1all =
      { c1u with x := (cowardlySpecPos c1board c1u c1all).1,
                 y := (cowardlySpecPos c1board c1u c1all).2 } :=
  moveUpgradeCowardly_matches_spec c1board c1u c1all (by decide) (by decide)
    (by decide) (by decide) (by decide)

/-- Witness for C9: a lone king on e4 with an upgrade in the far corner,
already a local maximum. -/
theorem relocationPass_idempotent_witness :
    relocationPass c9board c9ups = c9ups :=
  relocationPass_idempotent c9board c9ups (by decide)

lemma getD_mem {α : Type} (l : List α) (n : Nat) (d : α) (h : n < l.length) :
    l.getD n d ∈ l := by
  rw [List.getD_eq_getElem?_getD, List.getElem?_eq_getElem h]
  exact List.getElem_mem h

/-- **C4** (code bug): the end-of-turn pass is fed two upgrades on distinct
squares, yet returns both on the same square (1, 0) — the relocation
pass checks collisions against the pre-pass upgrade list. -/
theorem processEndTurn_collides :
    ¬(c4A.x = c4B.x ∧ c4A.y = c4B.y) ∧
    (processEndTurnSpawnsAndMoves rng0 c4board [c4A, c4B]).map (fun u => (u.x, u.y)) =
      [(1, 0), (1, 0)] := by
  constructor
  · decide
  · decide

/-- **C8** (amended): every spawned upgrade draws its type from the
eight-element `upgradeTypes` pool, and each of those eight types is a
possible outcome. -/
theorem spawnUpgrade_type_range :
    (∀ (board : Board) (ups : List UpgradeEntity) (diff : Int) (r : RandChoice)
       (u : UpgradeEntity), spawnUpgrade board ups diff r = some u →
         u.type ∈ upgradeTypes) ∧
    (∀ t ∈ upgradeTypes, ∃ (r : RandChoice) (u : UpgradeEntity),
       spawnUpgrade emptyBoard [] 0 r = some u ∧ u.type = t) := by
  constructor
  · intro board ups diff r u h
    unfold spawnUpgrade at h
    dsimp only at h
    split at h
    · exact absurd h (by simp)
    · rw [Option.some_inj] at h
      rw [← h]
      exact getD_mem upgradeTypes _ _ (Nat.mod_lt _ (by decide))
  · intro t ht
    fin_cases ht
    · exact ⟨(0, 0, "x"), ⟨"x", 0, 0, UpgradeKind.double_move⟩, by decide, rfl⟩
    · exact ⟨(0, 1, "x"), ⟨"x", 0, 0, UpgradeKind.martyrdom⟩, by decide, rfl⟩
    · exact ⟨(0, 2, "x"), ⟨"x", 0, 0, UpgradeKind.hidden_move⟩, by decide, rfl⟩
    · exact ⟨(0, 3, "x"), ⟨"x", 0, 0, UpgradeKind.swap⟩, by decide, rfl⟩
    · exact ⟨(0, 4, "x"), ⟨"x", 0, 0, UpgradeKind.ghost⟩, by decide, rfl⟩
    · exact ⟨(0, 5, "x"), ⟨"x", 0, 0, UpgradeKind.necromancer⟩, by decide, rfl⟩
    · exact ⟨(0, 6, "x"), ⟨"x", 0, 0, UpgradeKind.sniper⟩, by decide, rfl⟩
    · exact ⟨(0, 7, "x"), ⟨"x", 0, 0, UpgradeKind.builder⟩, by decide, rfl⟩

/-- Counterexample for C8: the spawn pool has eight types; `time_add` and
`time_sub` are not among them, so a ten-type uniform draw is impossible. -/
theorem upgradeTypes_missing_time_kinds :
    upgradeTypes.length = 8 ∧
    UpgradeKind.time_add ∉ upgradeTypes ∧ UpgradeKind.time_sub ∉ upgradeTypes := by
  decide

/-- Witness for C8: the concrete zero-draw spawn lands in the pool. -/
theorem spawnUpgrade_type_range_witness : c8u.type ∈ upgradeTypes :=
  spawnUpgrade_type_range.1 emptyBoard [] 0 (0, 0, "x") c8u (by decide)

/-! ## Helper lemmas: colours, board cells, click-handler paths -/

lemma Color.other_ne (c : Color) : Color.other c ≠ c := by
  cases c <;> simp [Color.other]

lemma getSq_update_same (b : Board) (v : Option Piece) (sq : Square) :
    getSq (bset b (sqRow sq) (sqCol sq) v) sq = v := by
  unfold getSq bset
  rw [if_pos ⟨rfl, rfl⟩]

lemma getSq_update_ne (b : Board) (v : Option Piece) (sq sq' : Square)
    (h2 : sq.2 < 8) (h2' : sq'.2 < 8) (hne : sq' ≠ sq) :
    getSq (bset b (sqRow sq) (sqCol sq) v) sq' = getSq b sq' := by
  unfold getSq bset sqRow sqCol
  rw [if_neg]
  rintro ⟨ha, hb⟩
  exact hne (Prod.ext hb (by omega))

lemma getSq_putSq_same (b : Board) (p : Piece) (sq : Square) :
    getSq (putSq b p sq) sq = some p := getSq_update_same b (some p) sq

lemma getSq_removeSq_same (b : Board) (sq : Square) :
    getSq (removeSq b sq) sq = none := getSq_update_same b none sq

lemma getSq_putSq_ne (b : Board) (p : Piece) (sq sq' : Square)
    (h2 : sq.2 < 8) (h2' : sq'.2 < 8) (hne : sq' ≠ sq) :
    getSq (putSq b p sq) sq' = getSq b sq' := getSq_update_ne b (some p) sq sq' h2 h2' hne

lemma getSq_removeSq_ne (b : Board) (sq sq' : Square)
    (h2 : sq.2 < 8) (h2' : sq'.2 < 8) (hne : sq' ≠ sq) :
    getSq (removeSq b sq) sq' = getSq b sq' := getSq_update_ne b none sq sq' h2 h2' hne

lemma mset_same (m : ModMap) (sq : Square) (v : Option Modifier) :
    mset m sq v sq = v := by
  unfold mset
  rw [if_pos rfl]

lemma mset_ne (m : ModMap) (sq sq' : Square) (v : Option Modifier)
    (hne : sq' ≠ sq) : mset m sq v sq' = m sq' := by
  unfold mset
  rw [if_neg hne]

lemma catchPath_eq (gs : GameState) (pc : Color) (square : Square) :
    catchPath gs pc square = (gs, selUi gs pc square) := by
  unfold catchPath selUi
  cases getSq gs.board square with
  | none => rfl
  | some p =>
    by_cases h : p.color = pc
    · simp only [h, if_true]
    · simp only [h, if_false]

/-- Any action is ignored while the acting side's clock shows zero. -/
lemma handleClick_zero_time (gs : GameState) (ui : UiState) (pc : Color)
    (square : Square) (now : Nat) (rng : Rng) (ext : Option ExtMove) (gv cm : Bool)
    (h : gs.timeLeft pc = 0) :
    handleClick gs ui pc square now rng ext gv cm = (gs, ui) := by
  unfold handleClick
  by_cases hw : gs.winner.isSome = true
  · rw [if_pos hw]
  · rw [if_neg hw]
    by_cases ht : gs.turn ≠ pc
    · rw [if_pos ht]
    · rw [if_neg ht, if_pos h]

/-- Dispatch to the builder branch. -/
lemma handleClick_builderMode (gs : GameState) (ui : UiState) (pc : Color)
    (square : Square) (now : Nat) (rng : Rng) (ext : Option ExtMove) (gv cm : Bool)
    (sel : Square) (sp : Square × List Square)
    (h1 : gs.winner = none) (h2 : gs.turn = pc) (h3 : gs.timeLeft pc ≠ 0)
    (hsel : ui.selectedSquare = some sel) (hne : sel ≠ square)
    (hb : ui.builderActive = some sp) :
    handleClick gs ui pc square now rng ext gv cm =
      builderStep gs ui pc square now rng sp := by
  simp only [handleClick, h1, h2, h3, hsel, hne, hb, Option.isSome_none,
    Bool.false_eq_true, if_false, ne_eq, not_true_eq_false, ite_false]

/-- Dispatch to the swap branch. -/
lemma handleClick_swapMode (gs : GameState) (ui : UiState) (pc : Color)
    (square : Square) (now : Nat) (rng : Rng) (ext : Option ExtMove) (gv cm : Bool)
    (sel src : Square)
    (h1 : gs.winner = none) (h2 : gs.turn = pc) (h3 : gs.timeLeft pc ≠ 0)
    (hsel : ui.selectedSquare = some sel) (hne : sel ≠ square)
    (hb : ui.builderActive = none) (hsw : ui.awaitingSwapSource = some src) :
    handleClick gs ui pc square now rng ext gv cm =
      swapStep gs ui pc square now rng src := by
  simp only [handleClick, h1, h2, h3, hsel, hne, hb, hsw, Option.isSome_none,
    Bool.false_eq_true, if_false, ne_eq, not_true_eq_false, ite_false]

/-- Dispatch to the sniper branch. -/
lemma handleClick_sniperMode (gs : GameState) (ui : UiState) (pc : Color)
    (square : Square) (now : Nat) (rng : Rng) (ext : Option ExtMove) (gv cm : Bool)
    (sel satk : Square)
    (h1 : gs.winner = none) (h2 : gs.turn = pc) (h3 : gs.timeLeft pc ≠ 0)
    (hsel : ui.selectedSquare = some sel) (hne : sel ≠ square)
    (hb : ui.builderActive = none) (hsw : ui.awaitingSwapSource = none)
    (hsn : ui.sniperAttacker = some satk) :
    handleClick gs ui pc square now rng ext gv cm =
      sniperStep gs ui pc square now rng satk := by
  simp only [handleClick, h1, h2, h3, hsel, hne, hb, hsw, hsn, Option.isSome_none,
    Bool.false_eq_true, if_false, ne_eq, not_true_eq_false, ite_false]

/-- A wall on the destination throws before any move handling. -/
lemma handleClick_wallBlocked (gs : GameState) (ui : UiState) (pc : Color)
    (square : Square) (now : Nat) (rng : Rng) (ext : Option ExtMove) (gv cm : Bool)
    (sel : Square)
    (h1 : gs.winner = none) (h2 : gs.turn = pc) (h3 : gs.timeLeft pc ≠ 0)
    (hsel : ui.selectedSquare = some sel) (hne : sel ≠ square)
    (hb : ui.builderActive = none) (hsw : ui.awaitingSwapSource = none)
    (hsn : ui.sniperAttacker = none) (hwall : (gs.walls square).isSome = true) :
    handleClick gs ui pc square now rng ext gv cm = catchPath gs pc square := by
  simp only [handleClick, h1, h2, h3, hsel, hne, hb, hsw, hsn, hwall,
    Option.isSome_none, Bool.false_eq_true, if_false, ne_eq, not_true_eq_false,
    ite_false, if_true]

/-- A rejected standard move (no source modifier) lands in the catch path. -/
lemma handleClick_illegal (gs : GameState) (ui : UiState) (pc : Color)
    (square : Square) (now : Nat) (rng : Rng) (gv cm : Bool) (sel : Square)
    (h1 : gs.winner = none) (h2 : gs.turn = pc) (h3 : gs.timeLeft pc ≠ 0)
    (hsel : ui.selectedSquare = some sel) (hne : sel ≠ square)
    (hb : ui.builderActive = none) (hsw : ui.awaitingSwapSource = none)
    (hsn : ui.sniperAttacker = none) (hwall : gs.walls square = none)
    (hmod : gs.modifiers sel = none) :
    handleClick gs ui pc square now rng none gv cm = catchPath gs pc square := by
  simp only [handleClick, h1, h2, h3, hsel, hne, hb, hsw, hsn, hwall, hmod,
    Option.isSome_none, Bool.false_eq_true, if_false, ne_eq, not_true_eq_false,
    ite_false]

/-- An invalid ghost move lands in the catch path. -/
lemma handleClick_ghostInvalid (gs : GameState) (ui : UiState) (pc : Color)
    (square : Square) (now : Nat) (rng : Rng) (ext : Option ExtMove) (cm : Bool)
    (sel : Square) (m : Modifier)
    (h1 : gs.winner = none) (h2 : gs.turn = pc) (h3 : gs.timeLeft pc ≠ 0)
    (hsel : ui.selectedSquare = some sel) (hne : sel ≠ square)
    (hb : ui.builderActive = none) (hsw : ui.awaitingSwapSource = none)
    (hsn : ui.sniperAttacker = none) (hwall : gs.walls square = none)
    (hmod : gs.modifiers sel = some m) (hgm : m.type = UpgradeKind.ghost) :
    handleClick gs ui pc square now rng ext false cm = catchPath gs pc square := by
  simp only [handleClick, h1, h2, h3, hsel, hne, hb, hsw, hsn, hwall, hmod, hgm,
    Option.isSome_none, Bool.false_eq_true, if_false, ne_eq, not_true_eq_false,
    ite_false, beq_self_eq_true, if_true, Bool.false_eq_true]

/-- A validated standard move with no source modifier commits through
`movePost`. -/
lemma handleClick_stdMove (gs : GameState) (ui : UiState) (pc : Color)
    (square : Square) (now : Nat) (rng : Rng) (res : ExtMove) (gv cm : Bool)
    (sel : Square)
    (h1 : gs.winner = none) (h2 : gs.turn = pc) (h3 : gs.timeLeft pc ≠ 0)
    (hsel : ui.selectedSquare = some sel) (hne : sel ≠ square)
    (hb : ui.builderActive = none) (hsw : ui.awaitingSwapSource = none)
    (hsn : ui.sniperAttacker = none) (hwall : gs.walls square = none)
    (hmod : gs.modifiers sel = none) :
    handleClick gs ui pc square now rng (some res) gv cm =
      movePost gs ui pc sel square now (elapsedOf gs.lastMoveTime now) rng
        res.newBoard gs.winner none cm res.san := by
  simp only [handleClick, h1, h2, h3, hsel, hne, hb, hsw, hsn, hwall, hmod,
    Option.isSome_none, Bool.false_eq_true, if_false, ne_eq, not_true_eq_false,
    ite_false]

/-- A validated standard move with a non-ghost source modifier commits
through `movePost`. -/
lemma handleClick_stdMoveMod (gs : GameState) (ui : UiState) (pc : Color)
    (square : Square) (now : Nat) (rng : Rng) (res : ExtMove) (gv cm : Bool)
    (sel : Square) (m : Modifier)
    (h1 : gs.winner = none) (h2 : gs.turn = pc) (h3 : gs.timeLeft pc ≠ 0)
    (hsel : ui.selectedSquare = some sel) (hne : sel ≠ square)
    (hb : ui.builderActive = none) (hsw : ui.awaitingSwapSource = none)
    (hsn : ui.sniperAttacker = none) (hwall : gs.walls square = none)
    (hmod : gs.modifiers sel = some m) (hgm : m.type ≠ UpgradeKind.ghost) :
    handleClick gs ui pc square now rng (some res) gv cm =
      movePost gs ui pc sel square now (elapsedOf gs.lastMoveTime now) rng
        res.newBoard gs.winner (some m) cm res.san := by
  simp only [handleClick, h1, h2, h3, hsel, hne, hb, hsw, hsn, hwall, hmod,
    Option.isSome_none, Bool.false_eq_true, if_false, ne_eq, not_true_eq_false,
    ite_false, beq_iff_eq, hgm]

/-- A validated ghost move commits through `ghostExec` and `movePost`. -/
lemma handleClick_ghostMove (gs : GameState) (ui : UiState) (pc : Color)
    (square : Square) (now : Nat) (rng : Rng) (ext : Option ExtMove) (cm : Bool)
    (sel : Square) (m : Modifier)
    (h1 : gs.winner = none) (h2 : gs.turn = pc) (h3 : gs.timeLeft pc ≠ 0)
    (hsel : ui.selectedSquare = some sel) (hne : sel ≠ square)
    (hb : ui.builderActive = none) (hsw : ui.awaitingSwapSource = none)
    (hsn : ui.sniperAttacker = none) (hwall : gs.walls square = none)
    (hmod : gs.modifiers sel = some m) (hgm : m.type = UpgradeKind.ghost) :
    handleClick gs ui pc square now rng ext true cm =
      movePost gs ui pc sel square now (elapsedOf gs.lastMoveTime now) rng
        (ghostExec gs pc sel square).1 (ghostExec gs pc sel square).2
        (some m) cm "[GHOST]" := by
  simp only [handleClick, h1, h2, h3, hsel, hne, hb, hsw, hsn, hwall, hmod, hgm,
    Option.isSome_none, Bool.false_eq_true, if_false, ne_eq, not_true_eq_false,
    ite_false, beq_self_eq_true, if_true]

lemma updTL_same (tl : Color → Nat) (c : Color) (v : Nat) : updTL tl c v c = v := by
  unfold updTL
  rw [if_pos rfl]

lemma updTL_ne (tl : Color → Nat) (c c' : Color) (v : Nat) (h : c' ≠ c) :
    updTL tl c v c' = tl c' := by
  unfold updTL
  rw [if_neg h]

/-- **C2** (amended).  (1) Every action is rejected outright while the
acting side's clock shows zero.  (2)–(4) A sniper, swap, or completed
builder resolution flips the turn token but leaves both clocks exactly
as they were: no elapsed-time charge and no increment.  (5) Only the
ordinary move path charges the elapsed whole seconds (floored at 0) and
then adds the increment for the flipped turn. -/
theorem clock_handling_amended :
    (∀ (gs : GameState) (ui : UiState) (pc : Color) (square : Square)
       (now : Nat) (rng : Rng) (ext : Option ExtMove) (gv cm : Bool),
       gs.timeLeft pc = 0 →
       handleClick gs ui pc square now rng ext gv cm = (gs, ui)) ∧
    (∀ (gs : GameState) (ui : UiState) (pc : Color) (square : Square)
       (now : Nat) (rng : Rng) (ext : Option ExtMove) (gv cm : Bool)
       (sel satk : Square) (tp : Piece),
       gs.winner = none → gs.turn = pc → gs.timeLeft pc ≠ 0 →
       ui.selectedSquare = some sel → sel ≠ square →
       ui.builderActive = none → ui.awaitingSwapSource = none →
       ui.sniperAttacker = some satk →
       getSq gs.board square = some tp → tp.color ≠ pc → cheb satk square ≤ 3 →
       (handleClick gs ui pc square now rng ext gv cm).1.timeLeft = gs.timeLeft ∧
       (handleClick gs ui pc square now rng ext gv cm).1.turn = Color.other gs.turn) ∧
    (∀ (gs : GameState) (ui : UiState) (pc : Color) (square : Square)
       (now : Nat) (rng : Rng) (ext : Option ExtMove) (gv cm : Bool)
       (sel src : Square) (tp : Piece),
       gs.winner = none → gs.turn = pc → gs.timeLeft pc ≠ 0 →
       ui.selectedSquare = some sel → sel ≠ square →
       ui.builderActive = none → ui.awaitingSwapSource = some src →
       getSq gs.board square = some tp → tp.color = pc → square ≠ src →
       (handleClick gs ui pc square now rng ext gv cm).1.timeLeft = gs.timeLeft ∧
       (handleClick gs ui pc square now rng ext gv cm).1.turn = Color.other gs.turn) ∧
    (∀ (gs : GameState) (ui : UiState) (pc : Color) (square : Square)
       (now : Nat) (rng : Rng) (ext : Option ExtMove) (gv cm : Bool)
       (sel src : Square) (placed : List Square),
       gs.winner = none → gs.turn = pc → gs.timeLeft pc ≠ 0 →
       ui.selectedSquare = some sel → sel ≠ square →
       ui.builderActive = some (src, placed) →
       getSq gs.board square = none → gs.walls square = none →
       placed.length = 2 →
       (handleClick gs ui pc square now rng ext gv cm).1.timeLeft = gs.timeLeft ∧
       (handleClick gs ui pc square now rng ext gv cm).1.turn = Color.other gs.turn) ∧
    (∀ (gs : GameState) (ui : UiState) (pc : Color) (square : Square)
       (now : Nat) (rng : Rng) (res : ExtMove) (gv cm : Bool)
       (sel : Square) (lmt : Nat),
       gs.winner = none → gs.turn = pc → gs.timeLeft pc ≠ 0 →
       ui.selectedSquare = some sel → sel ≠ square →
       ui.builderActive = none → ui.awaitingSwapSource = none →
       ui.sniperAttacker = none → gs.walls square = none →
       gs.modifiers sel = none → gs.modifiers square = none →
       gs.upgrades.findIdx? (upgradeClickHit square) = none →
       gs.lastMoveTime = some lmt →
       (handleClick gs ui pc square now rng (some res) gv cm).1.timeLeft pc =
         gs.timeLeft pc - (now - lmt) / 1000 + gs.timeConfig.increment ∧
       (handleClick gs ui pc square now rng (some res) gv cm).1.timeLeft (Color.other pc) =
         gs.timeLeft (Color.other pc) ∧
       (handleClick gs ui pc square now rng (some res) gv cm).1.turn = Color.other gs.turn) := by
  refine ⟨?_, ?_, ?_, ?_, ?_⟩
  · intro gs ui pc square now rng ext gv cm h
    exact handleClick_zero_time gs ui pc square now rng ext gv cm h
  · intro gs ui pc square now rng ext gv cm sel satk tp h1 h2 h3 hsel hne hb hsw hsn htp hcol hrange
    rw [handleClick_sniperMode gs ui pc square now rng ext gv cm sel satk
      h1 h2 h3 hsel hne hb hsw hsn]
    unfold sniperStep
    rw [htp]
    dsimp only
    rw [if_pos hcol, if_pos hrange]
    exact ⟨rfl, rfl⟩
  · intro gs ui pc square now rng ext gv cm sel src tp h1 h2 h3 hsel hne hb hsw htp hcol hnesrc
    rw [handleClick_swapMode gs ui pc square now rng ext gv cm sel src
      h1 h2 h3 hsel hne hb hsw]
    unfold swapStep
    rw [htp]
    dsimp only
    rw [if_pos ⟨hcol, hnesrc⟩]
    exact ⟨rfl, rfl⟩
  · intro gs ui pc square now rng ext gv cm sel src placed h1 h2 h3 hsel hne hb hsq hwall hlen
    rw [handleClick_builderMode gs ui pc square now rng ext gv cm sel (src, placed)
      h1 h2 h3 hsel hne hb]
    unfold builderStep
    rw [hsq, hwall]
    dsimp only
    rw [if_neg (by simp), if_neg (by simp [hlen])]
    exact ⟨rfl, rfl⟩
  · intro gs ui pc square now rng res gv cm sel lmt h1 h2 h3 hsel hne hb hsw hsn hwall hmod hmsq hfind hl
    rw [handleClick_stdMove gs ui pc square now rng res gv cm sel
      h1 h2 h3 hsel hne hb hsw hsn hwall hmod]
    simp only [movePost, hfind, moveFinish, hmsq, hl, elapsedOf]
    rw [if_pos (Color.other_ne gs.turn)]
    have hopc : Color.other pc ≠ pc := Color.other_ne pc
    subst h2
    refine ⟨?_, ?_, ?_⟩
    · rw [updTL_same, updTL_same]
    · rw [updTL_ne _ _ _ _ hopc, updTL_ne _ _ _ _ hopc]
    · trivial

/-- Counterexample for C2: a sniper resolution (5 whole seconds elapsed,
increment 3) flips the turn yet commits with the mover's clock exactly
as it was — neither charged nor incremented. -/
theorem sniper_skips_clock_counterexample :
    (handleClick c2gs c2ui Color.w (5, 4) 5000 rng0 none false false).1.turn = Color.b ∧
    (handleClick c2gs c2ui Color.w (5, 4) 5000 rng0 none false false).1.timeLeft Color.w = 100 ∧
    c2gs.timeLeft Color.w = 100 ∧ c2gs.timeConfig.increment = 3 ∧
    c2gs.lastMoveTime = some 0 ∧
    getSq (handleClick c2gs c2ui Color.w (5, 4) 5000 rng0 none false false).1.board (5, 4) =
      none := by
  decide

/-- Witness for C2: the sniper conjunct evaluated at a concrete state. -/
theorem clock_handling_amended_witness :
    (handleClick c2gs c2ui Color.w (5, 4) 5000 rng0 none false false).1.timeLeft =
      c2gs.timeLeft ∧
    (handleClick c2gs c2ui Color.w (5, 4) 5000 rng0 none false false).1.turn =
      Color.other c2gs.turn :=
  clock_handling_amended.2.1 c2gs c2ui Color.w (5, 4) 5000 rng0 none false false
    (3, 3) (3, 3) bKnight rfl rfl (by decide) rfl (by decide) rfl rfl rfl
    (by decide) (by decide) (by decide)

/-- **C3** (amended).  With a sniper pending from `satk`, a click resolves
iff an enemy piece within Chebyshev distance 3 stands on the clicked
square.  A non-king target is removed without moving the attacker, the
sniper modifier is deleted from the attacker's square and the turn is
consumed; an enemy-king target instead sets the actor as winner with the
king left standing — the position is unchanged.  Any other click leaves
the whole state unchanged. -/
theorem sniper_resolution_amended :
    (∀ (gs : GameState) (ui : UiState) (pc : Color) (square : Square)
       (now : Nat) (rng : Rng) (ext : Option ExtMove) (gv cm : Bool)
       (sel satk : Square) (tp : Piece),
       gs.winner = none → gs.turn = pc → gs.timeLeft pc ≠ 0 →
       ui.selectedSquare = some sel → sel ≠ square →
       ui.builderActive = none → ui.awaitingSwapSource = none →
       ui.sniperAttacker = some satk →
       getSq gs.board square = some tp → tp.color ≠ pc → cheb satk square ≤ 3 →
       tp.ptype ≠ Ptype.k →
       (handleClick gs ui pc square now rng ext gv cm).1.board =
         removeSq gs.board square ∧
       (handleClick gs ui pc square now rng ext gv cm).1.modifiers =
         mset gs.modifiers satk none ∧
       (handleClick gs ui pc square now rng ext gv cm).1.turn = Color.other gs.turn ∧
       (handleClick gs ui pc square now rng ext gv cm).1.winner = gs.winner ∧
       (handleClick gs ui pc square now rng ext gv cm).2.selectedSquare = none ∧
       (handleClick gs ui pc square now rng ext gv cm).2.sniperAttacker = none) ∧
    (∀ (gs : GameState) (ui : UiState) (pc : Color) (square : Square)
       (now : Nat) (rng : Rng) (ext : Option ExtMove) (gv cm : Bool)
       (sel satk : Square) (tp : Piece),
       gs.winner = none → gs.turn = pc → gs.timeLeft pc ≠ 0 →
       ui.selectedSquare = some sel → sel ≠ square →
       ui.builderActive = none → ui.awaitingSwapSource = none →
       ui.sniperAttacker = some satk →
       getSq gs.board square = some tp → tp.color ≠ pc → cheb satk square ≤ 3 →
       tp.ptype = Ptype.k →
       (handleClick gs ui pc square now rng ext gv cm).1.board = gs.board ∧
       (handleClick gs ui pc square now rng ext gv cm).1.winner = some pc ∧
       (handleClick gs ui pc square now rng ext gv cm).1.modifiers =
         mset gs.modifiers satk none ∧
       (handleClick gs ui pc square now rng ext gv cm).1.turn = Color.other gs.turn) ∧
    (∀ (gs : GameState) (ui : UiState) (pc : Color) (square : Square)
       (now : Nat) (rng : Rng) (ext : Option ExtMove) (gv cm : Bool)
       (sel satk : Square),
       gs.winner = none → gs.turn = pc → gs.timeLeft pc ≠ 0 →
       ui.selectedSquare = some sel → sel ≠ square →
       ui.builderActive = none → ui.awaitingSwapSource = none →
       ui.sniperAttacker = some satk →
       (∀ tp, getSq gs.board square = some tp →
          tp.color = pc ∨ ¬ cheb satk square ≤ 3) →
       handleClick gs ui pc square now rng ext gv cm = (gs, ui)) := by
  refine ⟨?_, ?_, ?_⟩
  · intro gs ui pc square now rng ext gv cm sel satk tp
      h1 h2 h3 hsel hne hb hsw hsn htp hcol hrange hk
    rw [handleClick_sniperMode gs ui pc square now rng ext gv cm sel satk
      h1 h2 h3 hsel hne hb hsw hsn]
    unfold sniperStep
    rw [htp]
    dsimp only
    rw [if_pos hcol, if_pos hrange, if_neg hk]
    exact ⟨rfl, rfl, rfl, rfl, rfl, rfl⟩
  · intro gs ui pc square now rng ext gv cm sel satk tp
      h1 h2 h3 hsel hne hb hsw hsn htp hcol hrange hk
    rw [handleClick_sniperMode gs ui pc square now rng ext gv cm sel satk
      h1 h2 h3 hsel hne hb hsw hsn]
    unfold sniperStep
    rw [htp]
    dsimp only
    rw [if_pos hcol, if_pos hrange, if_pos hk]
    exact ⟨rfl, rfl, rfl, rfl⟩
  · intro gs ui pc square now rng ext gv cm sel satk
      h1 h2 h3 hsel hne hb hsw hsn hrej
    rw [handleClick_sniperMode gs ui pc square now rng ext gv cm sel satk
      h1 h2 h3 hsel hne hb hsw hsn]
    unfold sniperStep
    cases hq : getSq gs.board square with
    | none => rfl
    | some tp =>
      dsimp only
      rcases hrej tp hq with hcol | hrange
      · rw [if_neg (not_not_intro hcol)]
      · by_cases hcol : tp.color ≠ pc
        · rw [if_pos hcol, if_neg hrange]
        · rw [if_neg hcol]

/-- Counterexample for C3 (Scenario D): sniping the black king on g7 sets
white as winner, but the king is not removed from the position. -/
theorem sniper_king_not_removed_counterexample :
    (handleClick c3gs c3ui Color.w (6, 6) 5000 rng0 none false false).1.winner =
      some Color.w ∧
    getSq (handleClick c3gs c3ui Color.w (6, 6) 5000 rng0 none false false).1.board (6, 6) =
      some bKing := by
  decide

/-- Witness for C3: the king-target conjunct evaluated at Scenario D. -/
theorem sniper_resolution_amended_witness :
    (handleClick c3gs c3ui Color.w (6, 6) 5000 rng0 none false false).1.board =
      c3gs.board ∧
    (handleClick c3gs c3ui Color.w (6, 6) 5000 rng0 none false false).1.winner =
      some Color.w ∧
    (handleClick c3gs c3ui Color.w (6, 6) 5000 rng0 none false false).1.modifiers =
      mset c3gs.modifiers (3, 3) none ∧
    (handleClick c3gs c3ui Color.w (6, 6) 5000 rng0 none false false).1.turn =
      Color.other c3gs.turn :=
  sniper_resolution_amended.2.1 c3gs c3ui Color.w (6, 6) 5000 rng0 none false false
    (3, 3) (3, 3) bKing rfl rfl (by decide) rfl (by decide) rfl rfl rfl
    (by decide) (by decide) (by decide) rfl

lemma mem_allSquares_iff (sq : Square) : sq ∈ allSquares ↔ sq.1 < 8 ∧ sq.2 < 8 := by
  unfold allSquares
  rw [List.mem_flatMap]
  constructor
  · rintro ⟨f, hf, hm⟩
    rw [List.mem_map] at hm
    obtain ⟨r, hr, heq⟩ := hm
    rw [← heq]
    exact ⟨List.mem_range.mp hf, List.mem_range.mp hr⟩
  · rintro ⟨h1, h2⟩
    exact ⟨sq.1, List.mem_range.mpr h1, by
      rw [List.mem_map]
      exact ⟨sq.2, List.mem_range.mpr h2, rfl⟩⟩

/-- A ghost move puts the moving piece on the destination square. -/
lemma ghostExec_board_dest (gs : GameState) (pc : Color) (sel square : Square)
    (pce : Piece) (hpse : getSq gs.board sel = some pce) :
    getSq (ghostExec gs pc sel square).1 square = some pce := by
  unfold ghostExec
  rw [hpse]
  dsimp only
  exact getSq_putSq_same _ _ _

/-- A ghost move leaves every square other than source and destination
untouched. -/
lemma ghostExec_board_other (gs : GameState) (pc : Color) (sel square sq : Square)
    (hsel2 : sel.2 < 8) (hsq2 : square.2 < 8) (hq2 : sq.2 < 8)
    (hne1 : sq ≠ sel) (hne2 : sq ≠ square) :
    getSq (ghostExec gs pc sel square).1 sq = getSq gs.board sq := by
  unfold ghostExec
  dsimp only
  have hRsel : getSq (removeSq gs.board sel) sq = getSq gs.board sq :=
    getSq_removeSq_ne gs.board sel sq hsel2 hq2 hne1
  cases hp : getSq gs.board sel with
  | none =>
    dsimp only
    split
    · exact hRsel
    · split
      · dsimp only
        rw [getSq_removeSq_ne _ square sq hsq2 hq2 hne2]
        exact hRsel
      · exact hRsel
  | some pp =>
    dsimp only
    rw [getSq_putSq_ne _ _ square sq hsq2 hq2 hne2]
    split
    · dsimp only
      exact hRsel
    · split
      · dsimp only
        rw [getSq_removeSq_ne _ square sq hsq2 hq2 hne2]
        exact hRsel
      · dsimp only
        exact hRsel

/-- `moveFinish` preserves the modifiers-on-pieces invariant whenever the
modifier map it is handed respects the board it is handed. -/
lemma moveFinish_modOnPieces (gs : GameState) (ui : UiState) (pc : Color)
    (square : Square) (now : Nat) (rng : Rng) (bMoved : Board)
    (nw : Option Color) (ct : Color) (nwls : WallMap) (alg : String)
    (tl1 : Color → Nat) (m2 : ModMap) (ups2 : List UpgradeEntity)
    (h : ∀ sq ∈ allSquares,
      (m2 sq).isSome = true → (getSq bMoved sq).isSome = true) :
    ModOnPieces (moveFinish gs ui pc square now rng bMoved nw ct nwls alg
      tl1 m2 ups2).1 := by
  unfold moveFinish ModOnPieces
  intro sq hsq
  dsimp only
  cases hms : m2 square with
  | none =>
    dsimp only
    exact h sq hsq
  | some md =>
    dsimp only
    by_cases ha : md.type = UpgradeKind.time_add
    · rw [if_pos ha]
      dsimp only
      intro hsome
      by_cases hq : sq = square
      · rw [hq, mset_same] at hsome
        simp at hsome
      · rw [mset_ne _ _ _ _ hq] at hsome
        exact h sq hsq hsome
    · rw [if_neg ha]
      by_cases hb : md.type = UpgradeKind.time_sub
      · rw [if_pos hb]
        dsimp only
        intro hsome
        by_cases hq : sq = square
        · rw [hq, mset_same] at hsome
          simp at hsome
        · rw [mset_ne _ _ _ _ hq] at hsome
          exact h sq hsq hsome
      · rw [if_neg hb]
        dsimp only
        exact h sq hsq

/-- **C5** (amended).  A sniper resolution preserves the invariant "every
square holding a modifier is occupied" when the sniped (non-king) target
square carries no modifier; a modifier on the sniped square itself
survives the removal of its piece (see the counterexample).  A ghost
move, and an ordinary move whose external move result occupies the
destination, vacates the source, and changes no other square, preserve
the invariant — in both cases provided no upgrade entity is picked up on
the destination square. -/
theorem modifier_occupancy_amended :
    (∀ (gs : GameState) (ui : UiState) (pc : Color) (square : Square)
       (now : Nat) (rng : Rng) (ext : Option ExtMove) (gv cm : Bool)
       (sel satk : Square) (tp : Piece),
       gs.winner = none → gs.turn = pc → gs.timeLeft pc ≠ 0 →
       ui.selectedSquare = some sel → sel ≠ square →
       ui.builderActive = none → ui.awaitingSwapSource = none →
       ui.sniperAttacker = some satk →
       getSq gs.board square = some tp → tp.color ≠ pc → cheb satk square ≤ 3 →
       tp.ptype ≠ Ptype.k →
       gs.modifiers square = none →
       square.1 < 8 → square.2 < 8 →
       ModOnPieces gs →
       ModOnPieces (handleClick gs ui pc square now rng ext gv cm).1) ∧
    (∀ (gs : GameState) (ui : UiState) (pc : Color) (square : Square)
       (now : Nat) (rng : Rng) (ext : Option ExtMove) (cm : Bool)
       (sel : Square) (m : Modifier) (pce : Piece),
       gs.winner = none → gs.turn = pc → gs.timeLeft pc ≠ 0 →
       ui.selectedSquare = some sel → sel ≠ square →
       ui.builderActive = none → ui.awaitingSwapSource = none →
       ui.sniperAttacker = none → gs.walls square = none →
       gs.modifiers sel = some m → m.type = UpgradeKind.ghost →
       getSq gs.board sel = some pce →
       gs.upgrades.findIdx? (upgradeClickHit square) = none →
       sel.2 < 8 → square.2 < 8 →
       ModOnPieces gs →
       ModOnPieces (handleClick gs ui pc square now rng ext true cm).1) ∧
    (∀ (gs : GameState) (ui : UiState) (pc : Color) (square : Square)
       (now : Nat) (rng : Rng) (res : ExtMove) (gv cm : Bool)
       (sel : Square) (pce : Piece),
       gs.winner = none → gs.turn = pc → gs.timeLeft pc ≠ 0 →
       ui.selectedSquare = some sel → sel ≠ square →
       ui.builderActive = none → ui.awaitingSwapSource = none →
       ui.sniperAttacker = none → gs.walls square = none →
       (gs.modifiers sel = none ∨
         ∃ m, gs.modifiers sel = some m ∧ m.type ≠ UpgradeKind.ghost) →
       gs.upgrades.findIdx? (upgradeClickHit square) = none →
       getSq res.newBoard square = some pce →
       getSq res.newBoard sel = none →
       (∀ sq, sq ≠ sel → sq ≠ square → getSq res.newBoard sq = getSq gs.board sq) →
       ModOnPieces gs →
       ModOnPieces (handleClick gs ui pc square now rng (some res) gv cm).1) := by
  refine ⟨?_, ?_, ?_⟩
  · intro gs ui pc square now rng ext gv cm sel satk tp
      h1 h2 h3 hsel hne hb hsw hsn htp hcol hrange hk hmsq hs1 hs2 hinv
    rw [handleClick_sniperMode gs ui pc square now rng ext gv cm sel satk
      h1 h2 h3 hsel hne hb hsw hsn]
    unfold sniperStep
    rw [htp]
    dsimp only
    rw [if_pos hcol, if_pos hrange, if_neg hk]
    intro sq hsq hmods
    obtain ⟨hq1, hq2⟩ := (mem_allSquares_iff sq).mp hsq
    dsimp only at hmods ⊢
    by_cases hqa : sq = satk
    · rw [hqa, mset_same] at hmods
      simp at hmods
    · rw [mset_ne _ _ _ _ hqa] at hmods
      by_cases hqs : sq = square
      · rw [hqs, hmsq] at hmods
        simp at hmods
      · rw [getSq_removeSq_ne gs.board square sq hs2 hq2 hqs]
        exact hinv sq hsq hmods
  · intro gs ui pc square now rng ext cm sel m pce
      h1 h2 h3 hsel hne hb hsw hsn hwall hmod hgm hpse hfind hsel2 hsq2 hinv
    rw [handleClick_ghostMove gs ui pc square now rng ext cm sel m
      h1 h2 h3 hsel hne hb hsw hsn hwall hmod hgm]
    simp only [movePost, hfind, hgm,
      eq_false (by decide : UpgradeKind.ghost ≠ UpgradeKind.double_move),
      eq_self_iff_true, if_true, if_false]
    apply moveFinish_modOnPieces
    intro sq hsq hsome
    obtain ⟨hq1, hq2⟩ := (mem_allSquares_iff sq).mp hsq
    by_cases hqa : sq = sel
    · rw [hqa, mset_same] at hsome
      simp at hsome
    · rw [mset_ne _ _ _ _ hqa] at hsome
      by_cases hqs : sq = square
      · rw [hqs, ghostExec_board_dest gs pc sel square pce hpse]
        rfl
      · rw [ghostExec_board_other gs pc sel square sq hsel2 hsq2 hq2 hqa hqs]
        exact hinv sq hsq hsome
  · intro gs ui pc square now rng res gv cm sel pce
      h1 h2 h3 hsel hne hb hsw hsn hwall hmodsel hfind hdest hsrc hother hinv
    rcases hmodsel with hmod | ⟨m, hmod, hgm⟩
    · rw [handleClick_stdMove gs ui pc square now rng res gv cm sel
        h1 h2 h3 hsel hne hb hsw hsn hwall hmod]
      simp only [movePost, hfind]
      apply moveFinish_modOnPieces
      intro sq hsq hsome
      by_cases hqs : sq = square
      · rw [hqs, hdest]
        rfl
      · by_cases hqa : sq = sel
        · rw [hqa, hmod] at hsome
          simp at hsome
        · rw [hother sq hqa hqs]
          exact hinv sq hsq hsome
    · by_cases hdm : m.type = UpgradeKind.double_move
      · rw [handleClick_stdMoveMod gs ui pc square now rng res gv cm sel m
          h1 h2 h3 hsel hne hb hsw hsn hwall hmod hgm]
        simp only [movePost, hfind, hdm, eq_self_iff_true, if_true]
        apply moveFinish_modOnPieces
        intro sq hsq hsome
        by_cases hqs : sq = square
        · rw [hqs, hdest]
          rfl
        · by_cases hqa : sq = sel
          · rw [hqa, mset_same] at hsome
            simp at hsome
          · rw [mset_ne _ _ _ _ hqa] at hsome
            rw [hother sq hqa hqs]
            exact hinv sq hsq hsome
      · rw [handleClick_stdMoveMod gs ui pc square now rng res gv cm sel m
          h1 h2 h3 hsel hne hb hsw hsn hwall hmod hgm]
        simp only [movePost, hfind, eq_false hdm, eq_false hgm, if_false]
        apply moveFinish_modOnPieces
        intro sq hsq hsome
        by_cases hqs : sq = square
        · rw [hqs, hdest]
          rfl
        · rw [mset_ne _ _ _ _ hqs] at hsome
          by_cases hqa : sq = sel
          · rw [hqa, mset_same] at hsome
            simp at hsome
          · rw [mset_ne _ _ _ _ hqa] at hsome
            rw [hother sq hqa hqs]
            exact hinv sq hsq hsome

/-- Counterexample for C5: sniping the martyrdom-carrying black knight on
g7 leaves its modifier keyed to the now-empty square. -/
theorem sniper_orphans_modifier_counterexample :
    (handleClick c5gs c5ui Color.w (6, 6) 5000 rng0 none false false).1.modifiers (6, 6) =
      some ⟨UpgradeKind.martyrdom, Color.b⟩ ∧
    getSq (handleClick c5gs c5ui Color.w (6, 6) 5000 rng0 none false false).1.board (6, 6) =
      none := by
  decide

/-- Witness for C5: the sniper conjunct at a state whose target square
carries no modifier. -/
theorem modifier_occupancy_amended_witness :
    ModOnPieces (handleClick c2gs c2ui Color.w (5, 4) 5000 rng0 none false false).1 :=
  modifier_occupancy_amended.1 c2gs c2ui Color.w (5, 4) 5000 rng0 none false false
    (3, 3) (3, 3) bKnight rfl rfl (by decide) rfl (by decide) rfl rfl rfl
    (by decide) (by decide) (by decide) (by decide) (by decide) (by decide)
    (by decide) (by unfold ModOnPieces; decide)

/-- **C6** (code bug): a necromancer-carrying white rook captures on d5;
no pawn appears on the vacated source square e4 (the spawn line is
commented out in the source), and the necromancer modifier is carried to
the destination instead of being dropped. -/
theorem necromancer_no_pawn_spawn :
    (handleClick c6gs c6ui Color.w (3, 4) 5000 rng0 (some c6ext) false false).1.modifiers (3, 4) =
      some ⟨UpgradeKind.necromancer, Color.w⟩ ∧
    (handleClick c6gs c6ui Color.w (3, 4) 5000 rng0 (some c6ext) false false).1.modifiers (4, 3) =
      none ∧
    getSq (handleClick c6gs c6ui Color.w (3, 4) 5000 rng0 (some c6ext) false false).1.board (4, 3) =
      none ∧
    getSq (handleClick c6gs c6ui Color.w (3, 4) 5000 rng0 (some c6ext) false false).1.board (3, 4) =
      some wRook := by
  decide

/-- **C7** (amended).  Every rejected action leaves the committed
GameState unchanged.  Rejections on the ordinary-move path — wall-blocked
destination, illegal standard move, invalid ghost move — move the
selection to the clicked square if it holds a friendly piece and clear it
otherwise (clearing every pending mode); rejected swap, sniper and
builder targets leave even the local interaction state untouched. -/
theorem rejection_immutability_amended :
    (∀ (gs : GameState) (ui : UiState) (pc : Color) (square : Square)
       (now : Nat) (rng : Rng) (ext : Option ExtMove) (gv cm : Bool) (sel : Square),
       gs.winner = none → gs.turn = pc → gs.timeLeft pc ≠ 0 →
       ui.selectedSquare = some sel → sel ≠ square →
       ui.builderActive = none → ui.awaitingSwapSource = none →
       ui.sniperAttacker = none → (gs.walls square).isSome = true →
       handleClick gs ui pc square now rng ext gv cm = (gs, selUi gs pc square)) ∧
    (∀ (gs : GameState) (ui : UiState) (pc : Color) (square : Square)
       (now : Nat) (rng : Rng) (gv cm : Bool) (sel : Square),
       gs.winner = none → gs.turn = pc → gs.timeLeft pc ≠ 0 →
       ui.selectedSquare = some sel → sel ≠ square →
       ui.builderActive = none → ui.awaitingSwapSource = none →
       ui.sniperAttacker = none → gs.walls square = none →
       gs.modifiers sel = none →
       handleClick gs ui pc square now rng none gv cm = (gs, selUi gs pc square)) ∧
    (∀ (gs : GameState) (ui : UiState) (pc : Color) (square : Square)
       (now : Nat) (rng : Rng) (ext : Option ExtMove) (cm : Bool)
       (sel : Square) (m : Modifier),
       gs.winner = none → gs.turn = pc → gs.timeLeft pc ≠ 0 →
       ui.selectedSquare = some sel → sel ≠ square →
       ui.builderActive = none → ui.awaitingSwapSource = none →
       ui.sniperAttacker = none → gs.walls square = none →
       gs.modifiers sel = some m → m.type = UpgradeKind.ghost →
       handleClick gs ui pc square now rng ext false cm = (gs, selUi gs pc square)) ∧
    (∀ (gs : GameState) (ui : UiState) (pc : Color) (square : Square)
       (now : Nat) (rng : Rng) (ext : Option ExtMove) (gv cm : Bool)
       (sel src : Square),
       gs.winner = none → gs.turn = pc → gs.timeLeft pc ≠ 0 →
       ui.selectedSquare = some sel → sel ≠ square →
       ui.builderActive = none → ui.awaitingSwapSource = some src →
       (∀ tp, getSq gs.board square = some tp →
          ¬(tp.color = pc ∧ square ≠ src)) →
       handleClick gs ui pc square now rng ext gv cm = (gs, ui)) ∧
    (∀ (gs : GameState) (ui : UiState) (pc : Color) (square : Square)
       (now : Nat) (rng : Rng) (ext : Option ExtMove) (gv cm : Bool)
       (sel satk : Square),
       gs.winner = none → gs.turn = pc → gs.timeLeft pc ≠ 0 →
       ui.selectedSquare = some sel → sel ≠ square →
       ui.builderActive = none → ui.awaitingSwapSource = none →
       ui.sniperAttacker = some satk →
       (∀ tp, getSq gs.board square = some tp →
          tp.color = pc ∨ ¬ cheb satk square ≤ 3) →
       handleClick gs ui pc square now rng ext gv cm = (gs, ui)) ∧
    (∀ (gs : GameState) (ui : UiState) (pc : Color) (square : Square)
       (now : Nat) (rng : Rng) (ext : Option ExtMove) (gv cm : Bool)
       (sel : Square) (sp : Square × List Square),
       gs.winner = none → gs.turn = pc → gs.timeLeft pc ≠ 0 →
       ui.selectedSquare = some sel → sel ≠ square →
       ui.builderActive = some sp →
       ((getSq gs.board square).isSome ∨ (gs.walls square).isSome) →
       handleClick gs ui pc square now rng ext gv cm = (gs, ui)) := by
  refine ⟨?_, ?_, ?_, ?_, ?_, ?_⟩
  · intro gs ui pc square now rng ext gv cm sel h1 h2 h3 hsel hne hb hsw hsn hwall
    rw [handleClick_wallBlocked gs ui pc square now rng ext gv cm sel
      h1 h2 h3 hsel hne hb hsw hsn hwall, catchPath_eq]
  · intro gs ui pc square now rng gv cm sel h1 h2 h3 hsel hne hb hsw hsn hwall hmod
    rw [handleClick_illegal gs ui pc square now rng gv cm sel
      h1 h2 h3 hsel hne hb hsw hsn hwall hmod, catchPath_eq]
  · intro gs ui pc square now rng ext cm sel m h1 h2 h3 hsel hne hb hsw hsn hwall hmod hgm
    rw [handleClick_ghostInvalid gs ui pc square now rng ext cm sel m
      h1 h2 h3 hsel hne hb hsw hsn hwall hmod hgm, catchPath_eq]
  · intro gs ui pc square now rng ext gv cm sel src h1 h2 h3 hsel hne hb hsw hrej
    rw [handleClick_swapMode gs ui pc square now rng ext gv cm sel src
      h1 h2 h3 hsel hne hb hsw]
    unfold swapStep
    cases hq : getSq gs.board square with
    | none => rfl
    | some tp =>
      dsimp only
      rw [if_neg (hrej tp hq)]
  · intro gs ui pc square now rng ext gv cm sel satk h1 h2 h3 hsel hne hb hsw hsn hrej
    rw [handleClick_sniperMode gs ui pc square now rng ext gv cm sel satk
      h1 h2 h3 hsel hne hb hsw hsn]
    unfold sniperStep
    cases hq : getSq gs.board square with
    | none => rfl
    | some tp =>
      dsimp only
      rcases hrej tp hq with hcol | hrange
      · rw [if_neg (not_not_intro hcol)]
      · by_cases hcol : tp.color ≠ pc
        · rw [if_pos hcol, if_neg hrange]
        · rw [if_neg hcol]
  · intro gs ui pc square now rng ext gv cm sel sp h1 h2 h3 hsel hne hb hocc
    rw [handleClick_builderMode gs ui pc square now rng ext gv cm sel sp
      h1 h2 h3 hsel hne hb]
    unfold builderStep
    rw [if_pos hocc]

/-- Counterexample for C7: a rejected swap target (the black pawn on e7)
leaves the selection on the swap source instead of clearing it, although
the clicked square holds no friendly piece. -/
theorem rejected_swap_keeps_selection_counterexample :
    handleClick c7gs c7ui Color.w (4, 6) 5000 rng0 none false false = (c7gs, c7ui) ∧
    c7ui.selectedSquare = some (4, 1) ∧
    (selUi c7gs Color.w (4, 6)).selectedSquare = none := by
  refine ⟨rfl, rfl, by decide⟩

/-- Witness for C7: the swap-rejection conjunct at the concrete state. -/
theorem rejection_immutability_amended_witness :
    handleClick c7gs c7ui Color.w (4, 6) 5000 rng0 none false false = (c7gs, c7ui) :=
  rejection_immutability_amended.2.2.2.1 c7gs c7ui Color.w (4, 6) 5000 rng0 none
    false false (4, 1) (4, 1) rfl rfl (by decide) rfl (by decide) rfl rfl
    (by decide)

/-- **C10.**  When an unmodified piece makes a validated ordinary move onto
a square that carries a modifier (the captured piece's) and no upgrade
entity, the modifier stays keyed to the destination — the capturer
inherits it — except that an inherited `time_add`/`time_sub` fires at
once in the mover's favour: +30 s to the mover's clock, or −15 s
(floored at 0) to the opponent's. -/
theorem capture_inherits_modifier (gs : GameState) (ui : UiState) (pc : Color)
    (square : Square) (now : Nat) (rng : Rng) (res : ExtMove) (gv cm : Bool)
    (sel : Square) (lmt : Nat) (m : Modifier)
    (h1 : gs.winner = none) (h2 : gs.turn = pc) (h3 : gs.timeLeft pc ≠ 0)
    (hsel : ui.selectedSquare = some sel) (hne : sel ≠ square)
    (hb : ui.builderActive = none) (hsw : ui.awaitingSwapSource = none)
    (hsn : ui.sniperAttacker = none) (hwall : gs.walls square = none)
    (hmod : gs.modifiers sel = none)
    (hmsq : gs.modifiers square = some m)
    (hfind : gs.upgrades.findIdx? (upgradeClickHit square) = none)
    (hl : gs.lastMoveTime = some lmt)
    (hcap : res.isCapture = true) :
    (m.type ≠ UpgradeKind.time_add → m.type ≠ UpgradeKind.time_sub →
       (handleClick gs ui pc square now rng (some res) gv cm).1.modifiers square =
         some m) ∧
    (m.type = UpgradeKind.time_add →
       (handleClick gs ui pc square now rng (some res) gv cm).1.modifiers square = none ∧
       (handleClick gs ui pc square now rng (some res) gv cm).1.timeLeft pc =
         gs.timeLeft pc - (now - lmt) / 1000 + 30 + gs.timeConfig.increment ∧
       (handleClick gs ui pc square now rng (some res) gv cm).1.timeLeft (Color.other pc) =
         gs.timeLeft (Color.other pc)) ∧
    (m.type = UpgradeKind.time_sub →
       (handleClick gs ui pc square now rng (some res) gv cm).1.modifiers square = none ∧
       (handleClick gs ui pc square now rng (some res) gv cm).1.timeLeft (Color.other pc) =
         gs.timeLeft (Color.other pc) - 15 ∧
       (handleClick gs ui pc square now rng (some res) gv cm).1.timeLeft pc =
         gs.timeLeft pc - (now - lmt) / 1000 + gs.timeConfig.increment) := by
  rw [handleClick_stdMove gs ui pc square now rng res gv cm sel
    h1 h2 h3 hsel hne hb hsw hsn hwall hmod]
  simp only [movePost, hfind, moveFinish, hmsq, hl, elapsedOf]
  have hopc : Color.other pc ≠ pc := Color.other_ne pc
  refine ⟨?_, ?_, ?_⟩
  · intro hta hts
    rw [if_neg hta, if_neg hts]
    dsimp only
    exact hmsq
  · intro hta
    rw [if_pos hta]
    dsimp only
    rw [if_pos (Color.other_ne gs.turn)]
    subst h2
    refine ⟨mset_same _ _ _, ?_, ?_⟩
    · rw [updTL_same, updTL_same, updTL_same]
    · rw [updTL_ne _ _ _ _ hopc, updTL_ne _ _ _ _ hopc, updTL_ne _ _ _ _ hopc]
  · intro hts
    rw [if_neg (by rw [hts]; decide), if_pos hts]
    dsimp only
    rw [if_pos (Color.other_ne gs.turn)]
    subst h2
    refine ⟨mset_same _ _ _, ?_, ?_⟩
    · rw [updTL_ne _ _ _ _ hopc, updTL_same, updTL_ne _ _ _ _ hopc]
    · rw [updTL_same, updTL_ne _ _ _ _ (Ne.symm hopc), updTL_same]

/-- Witness for C10: capturing the `time_add`-carrying pawn on d5 deletes
the inherited modifier and pays the capturer 30 s on top of the charge
and increment. -/
theorem capture_inherits_modifier_witness :
    (handleClick c10gs c10ui Color.w (3, 4) 5000 rng0 (some c6ext) false false).1.modifiers (3, 4) =
      none ∧
    (handleClick c10gs c10ui Color.w (3, 4) 5000 rng0 (some c6ext) false false).1.timeLeft Color.w =
      c10gs.timeLeft Color.w - (5000 - 0) / 1000 + 30 + c10gs.timeConfig.increment ∧
    (handleClick c10gs c10ui Color.w (3, 4) 5000 rng0 (some c6ext) false false).1.timeLeft
        (Color.other Color.w) =
      c10gs.timeLeft (Color.other Color.w) :=
  (capture_inherits_modifier c10gs c10ui Color.w (3, 4) 5000 rng0 c6ext false false
    (4, 3) 0 ⟨UpgradeKind.time_add, Color.b⟩ rfl rfl (by decide) rfl (by decide)
    rfl rfl rfl (by decide) (by decide) (by decide) (by decide) rfl
    (by decide)).2.1 rfl

end GlitchChess
